import Mathlib

/-!
Verification development for the brand-to-theme pipeline: a shallow embedding
of the attribute extractor (`PDFExtractor`), the token synthesizer and format
renderer (`DesignTokenExtractor`), and the two tool handlers, together with
theorems settling the specified properties.

Modelling conventions:
* JavaScript strings are Lean `String`s (lists of code points).
* JavaScript regular-expression scans are hand-compiled to character-list
  scanners with the same match/advance semantics (`lastIndex` continuation on a
  match, single-character advance on a failure).  Greedy sub-matches whose
  backtracking can never change the overall result are compiled greedily.
* JavaScript numbers occurring in design tokens are only ever created from
  literals and serialized; they are modelled by their canonical decimal string
  (`"300"`, `"1.2"`, ...), on which JS shortest round-trip printing is the
  identity.
* `new Date().toISOString()` is modelled by a `now : String` parameter.
* The file-system / pdf-parse collaborator is modelled by an oracle
  `String → PdfReadOutcome`; handlers additionally return the list of paths
  passed to that collaborator, so that "no collaborator call attempted" is
  expressible.
-/

namespace BrandTheme

/-! ### Character helpers -/

/-- Hexadecimal digit test: the character class `[A-Fa-f0-9]` of the source's
hex-colour regular expression. -/
def isHexDig (c : Char) : Bool :=
  c.isDigit || (('a' ≤ c) && (c ≤ 'f')) || (('A' ≤ c) && (c ≤ 'F'))

/-- Lower-case hexadecimal digit character for a value below 16, as produced by
JavaScript `Number.prototype.toString(16)`. -/
def hexDigitChar (n : Nat) : Char :=
  if n < 10 then Char.ofNat (48 + n) else Char.ofNat (87 + n)

/-- Numeric value of a hexadecimal digit character. -/
def hexCharVal (c : Char) : Nat :=
  if c.isDigit then c.toNat - 48
  else if ('a' ≤ c) && (c ≤ 'f') then c.toNat - 87
  else if ('A' ≤ c) && (c ≤ 'F') then c.toNat - 55
  else 0

/-- Word character in the sense of the JavaScript regex `\b` boundary:
`[A-Za-z0-9_]`. -/
def isWordChar (c : Char) : Bool :=
  c.isAlphanum || c == '_'

/-- Whitespace in the sense of the JavaScript regex class `\s`
(ASCII whitespace plus no-break space; the rarely used further Unicode space
code points never occur in the inputs this development evaluates). -/
def isJsWs (c : Char) : Bool :=
  c == ' ' || c == '\t' || c == '\n' || c == '\r' ||
    c.toNat == 11 || c.toNat == 12 || c.toNat == 160

/-- ASCII letter, i.e. the class `[A-Z]` under the `i` flag. -/
def isAsciiLetter (c : Char) : Bool :=
  (('A' ≤ c) && (c ≤ 'Z')) || (('a' ≤ c) && (c ≤ 'z'))

/-- Decimal value of a digit string, as JavaScript `parseInt` computes it on a
string of ASCII digits. -/
def natOfDigits (cs : List Char) : Nat :=
  cs.foldl (fun n c => n * 10 + (c.toNat - 48)) 0

/-- The model of JavaScript `String.prototype.toLowerCase()`: lower-case every
character.  (Kernel-computable, unlike `String.toLower`, which is defined by
well-founded recursion on byte positions.) -/
def lowerStr (s : String) : String :=
  String.mk (s.data.map Char.toLower)

/-! ### JavaScript `Number.prototype.toString(16)` -/

/-- Fuelled digit loop of hexadecimal printing; any fuel exceeding the value
itself is sufficient. -/
def natToHexF : Nat → Nat → List Char
  | 0, _ => []
  | f + 1, n =>
    if n < 16 then [hexDigitChar n]
    else natToHexF f (n / 16) ++ [hexDigitChar (n % 16)]

/-- Hexadecimal digit list of a natural number, most significant digit first;
the model of JavaScript `n.toString(16)` for a nonnegative integral number. -/
def natToHex (n : Nat) : List Char :=
  natToHexF (n + 1) n

/-- Zero-padded fixed-width hexadecimal rendering (spec wording: "zero-padded
to 6 hex digits" at width 6); used to compare against `natToHex`. -/
def padHex : Nat → Nat → List Char
  | 0, _ => []
  | k + 1, m => padHex k (m / 16) ++ [hexDigitChar (m % 16)]

/-- Conversion of an RGB triple to a hex string, mirroring the source:
`'#' + ((1 << 24) + (r << 16) + (g << 8) + b).toString(16).slice(1)`. -/
def rgbToHex (r g b : Nat) : String :=
  "#" ++ String.mk ((natToHex ((1 <<< 24) + (r <<< 16) + (g <<< 8) + b)).drop 1)

/-! ### Hex-pattern scanning

The source scans with `/#([A-Fa-f0-9]{6}|[A-Fa-f0-9]{3})/g`: at each position a
`#` followed by six hex digits is preferred, otherwise three; on a match the
scan resumes after the match, otherwise it advances one character. -/

/-- Take exactly `n` hex digits from the front of a character list. -/
def takeHexDigits : Nat → List Char → Option (List Char × List Char)
  | 0, cs => some ([], cs)
  | _ + 1, [] => none
  | n + 1, c :: cs =>
    if isHexDig c then
      match takeHexDigits n cs with
      | some (ds, rest) => some (c :: ds, rest)
      | none => none
    else none

/-- Attempt the hex-colour pattern at the current position, preferring the
6-digit alternative over the 3-digit one, as the regex alternation does. -/
def hexMatchAt : List Char → Option (List Char × List Char)
  | [] => none
  | c :: cs =>
    if c = '#' then
      match takeHexDigits 6 cs with
      | some (ds, rest) => some ('#' :: ds, rest)
      | none =>
        match takeHexDigits 3 cs with
        | some (ds, rest) => some ('#' :: ds, rest)
        | none => none
    else none

/-- Fuelled global scan for the hex-colour pattern (`String.prototype.match`
with the `g` flag); fuel is the input length, and every step consumes at least
one character. -/
def hexMatchesF : Nat → List Char → List (List Char)
  | 0, _ => []
  | _ + 1, [] => []
  | f + 1, c :: cs =>
    match hexMatchAt (c :: cs) with
    | some (m, rest) => m :: hexMatchesF f rest
    | none => hexMatchesF f cs

/-- All hex-colour matches of a text, in document order. -/
def hexMatches (cs : List Char) : List (List Char) :=
  hexMatchesF cs.length cs

/-! ### RGB-notation scanning

The source scans with `/RGB\s*\(\s*(\d{1,3})\s*,\s*(\d{1,3})\s*,\s*(\d{1,3})\s*\)/gi`.
For this pattern greedy matching of `\s*` and `\d{1,3}` (capped at three
digits) never needs backtracking: dropping a matched digit or space can only
put a character in front of `,` or `)` that those literals reject. -/

/-- Case-insensitive literal prefix match; returns the remainder on success. -/
def ciPrefix : List Char → List Char → Option (List Char)
  | [], cs => some cs
  | _ :: _, [] => none
  | p :: ps, c :: cs =>
    if p.toLower = c.toLower then ciPrefix ps cs else none

/-- Drop regex whitespace (`\s*`). -/
def dropJsWs (cs : List Char) : List Char :=
  cs.dropWhile isJsWs

/-- Take the maximal run of ASCII digits from the front. -/
def spanDigits : List Char → List Char × List Char
  | [] => ([], [])
  | c :: cs =>
    if c.isDigit then
      match spanDigits cs with
      | (ds, rest) => (c :: ds, rest)
    else ([], c :: cs)

/-- One RGB component: `\s*(\d{1,3})` followed by nothing else; fails when the
digit run is empty or longer than three (in which case the regex's capped
greedy match is inevitably followed by a digit where `,` or `)` is required). -/
def rgbComponentAt (cs : List Char) : Option (List Char × List Char) :=
  match spanDigits (dropJsWs cs) with
  | ([], _) => none
  | (ds, rest) => if ds.length ≤ 3 then some (ds, rest) else none

/-- Attempt the full RGB pattern at the current position; returns the three
captured digit strings and the remainder after the closing parenthesis. -/
def rgbMatchAt (cs : List Char) : Option ((List Char × List Char × List Char) × List Char) :=
  match ciPrefix ['r', 'g', 'b'] cs with
  | none => none
  | some r0 =>
    match dropJsWs r0 with
    | '(' :: r1 =>
      match rgbComponentAt r1 with
      | none => none
      | some (d1, r2) =>
        match dropJsWs r2 with
        | ',' :: r3 =>
          match rgbComponentAt r3 with
          | none => none
          | some (d2, r4) =>
            match dropJsWs r4 with
            | ',' :: r5 =>
              match rgbComponentAt r5 with
              | none => none
              | some (d3, r6) =>
                match dropJsWs r6 with
                | ')' :: r7 => some ((d1, d2, d3), r7)
                | _ => none
            | _ => none
        | _ => none
    | _ => none

/-- Fuelled global scan for the RGB pattern (`RegExp.prototype.exec` loop with
the `g` flag). -/
def rgbMatchesF : Nat → List Char → List (List Char × List Char × List Char)
  | 0, _ => []
  | _ + 1, [] => []
  | f + 1, c :: cs =>
    match rgbMatchAt (c :: cs) with
    | some (m, rest) => m :: rgbMatchesF f rest
    | none => rgbMatchesF f cs

/-- All RGB-notation matches of a text, in document order. -/
def rgbMatches (cs : List Char) : List (List Char × List Char × List Char) :=
  rgbMatchesF cs.length cs

/-! ### Signal records (the extractor's data model) -/

/-- Colour category of a `ColorInfo` signal. -/
inductive ColorCategory where
  | primary
  | secondary
  | accent
  | neutral
deriving DecidableEq, Repr

/-- Extracted colour signal (`ColorInfo` in the source; the `cmyk` and `usage`
fields of the interface are never written or read and are not modelled). -/
structure ColorInfo where
  name : String
  hex : String
  rgb : Option String := none
  category : Option ColorCategory := none
deriving DecidableEq, Repr

/-- Typography category of a `TypographyInfo` signal. -/
inductive TypoCategory where
  | heading
  | body
  | accent
deriving DecidableEq, Repr

/-- Extracted typography signal (`TypographyInfo`; `weights` and `usage` are
never written or read and are not modelled). -/
structure TypographyInfo where
  family : String
  category : Option TypoCategory := none
deriving DecidableEq, Repr

/-- Logo signal kind. -/
inductive LogoType where
  | primary
  | secondary
  | alternative
  | icon
deriving DecidableEq, Repr

/-- Extracted logo signal (`LogoInfo`; the never-populated `imageData` buffer
is not modelled). -/
structure LogoInfo where
  name : String
  type : LogoType
  description : Option String := none
deriving DecidableEq, Repr

/-- Spacing information of the branding data (declared in the source interface
but never produced by extraction). -/
structure SpacingInfo where
  base : Option Nat := none
  scale : List Nat := []
  rules : List String := []
deriving DecidableEq, Repr

/-- Aggregate extraction output (`BrandingData`). -/
structure BrandingData where
  colors : List ColorInfo
  typography : List TypographyInfo
  logos : List LogoInfo
  spacing : Option SpacingInfo := none
  brandName : Option String := none
  brandTagline : Option String := none
deriving DecidableEq, Repr

/-! ### Colour extraction (`extractColors`) -/

/-- Signals created by the hex-pattern pass: one per match, named positionally
and categorised first → `primary`, second → `secondary`, later → `accent`. -/
def hexSignals (text : String) : List ColorInfo :=
  (hexMatches text.data).enum.map fun p =>
    { name := "Color " ++ toString (p.1 + 1)
      hex := String.mk p.2
      rgb := none
      category := some (if p.1 = 0 then ColorCategory.primary
        else if p.1 = 1 then ColorCategory.secondary else ColorCategory.accent) }

/-- The signal pushed for a surviving RGB match: positional name over the
whole accumulated list, packed hex value, pretty-printed rgb expression, no
category. -/
def rgbSignal (d1 d2 d3 : List Char) (n : Nat) : ColorInfo where
  name := "Color RGB " ++ toString n
  hex := rgbToHex (natOfDigits d1) (natOfDigits d2) (natOfDigits d3)
  rgb := some ("rgb(" ++ String.mk d1 ++ ", " ++ String.mk d2 ++ ", " ++ String.mk d3 ++ ")")
  category := none

/-- The RGB-pass loop: each match is converted to hex and appended to the
accumulated colour list unless a colour with the same hex value (compared
case-insensitively) is already present. -/
def rgbPass : List (List Char × List Char × List Char) → List ColorInfo → List ColorInfo
  | [], acc => acc
  | (d1, d2, d3) :: rest, acc =>
    let sig := rgbSignal d1 d2 d3 (acc.length + 1)
    if acc.any fun c => lowerStr c.hex == lowerStr sig.hex then
      rgbPass rest acc
    else
      rgbPass rest (acc ++ [sig])

/-- Full colour extraction: hex-pattern signals first, then the RGB pass
pushing into the same list. -/
def extractColors (text : String) : List ColorInfo :=
  rgbPass (rgbMatches text.data) (hexSignals text)

/-! ### Typography extraction (`extractTypography`)

The source tests, for each name of a fixed font list, the regex
`new RegExp("\\b" + font + "\\b", "gi")` against the whole text. -/

/-- The fixed ordered list of common font names scanned for. -/
def commonFonts : List String :=
  ["Arial", "Helvetica", "Times", "Times New Roman", "Courier", "Verdana",
   "Georgia", "Palatino", "Garamond", "Bookman", "Tahoma", "Trebuchet MS",
   "Impact", "Comic Sans MS", "Webdings", "Symbol", "Montserrat", "Roboto",
   "Open Sans", "Lato", "Oswald", "Raleway", "PT Sans", "Merriweather",
   "Ubuntu", "Noto", "Playfair Display", "Poppins", "Nunito", "Work Sans"]

/-- Word-character test on an optional character; the edge of the text counts
as a non-word position for `\b`. -/
def wordOpt : Option Char → Bool
  | none => false
  | some c => isWordChar c

/-- A `\b` boundary holds between two adjacent positions iff exactly one of
them is a word character. -/
def boundaryOk (a b : Option Char) : Bool :=
  wordOpt a != wordOpt b

/-- Try the word-bounded, case-insensitive pattern at the current position:
`\b pat \b` with `prev` the character before the position. -/
def foundAt (pat : List Char) (prev : Option Char) (cs : List Char) : Bool :=
  match ciPrefix pat cs with
  | none => false
  | some rest =>
    boundaryOk prev cs.head? && boundaryOk ((cs.take pat.length).getLast?) rest.head?

/-- Scan every position of the text for the word-bounded pattern. -/
def wordScan (pat : List Char) : Option Char → List Char → Bool
  | _, [] => false
  | prev, c :: cs => foundAt pat prev (c :: cs) || wordScan pat (some c) cs

/-- The model of `new RegExp("\\b" + pat + "\\b", "gi").test(text)` (the
regex object is created afresh for each test, so `lastIndex` is always 0). -/
def wordTest (pat : String) (text : String) : Bool :=
  wordScan pat.data none text.data

/-- The category assigned to the `i`-th emitted typography signal. -/
def typoCat (n : Nat) : TypoCategory :=
  if n = 0 then TypoCategory.heading else TypoCategory.body

/-- Typography extraction: walk the fixed font list, emitting one signal per
font found in the text; fall back to the Arial/Helvetica defaults when no
font matched. -/
def extractTypography (text : String) : List TypographyInfo :=
  let typography := commonFonts.foldl
    (fun acc font =>
      if wordTest font text then
        acc ++ [{ family := font, category := some (typoCat acc.length) }]
      else acc)
    []
  if typography.isEmpty then
    [{ family := "Arial", category := some TypoCategory.heading },
     { family := "Helvetica", category := some TypoCategory.body }]
  else typography

/-! ### Logo extraction (`extractLogos`) -/

/-- Test for an alternation of word-bounded, case-insensitive literals, the
shape of the source's logo keyword regexes. -/
def anyWordTest (pats : List String) (text : String) : Bool :=
  pats.any fun p => wordTest p text

/-- Logo extraction: three independent presence tests. -/
def extractLogos (text : String) : List LogoInfo :=
  (if wordTest "logo" text then
    [{ name := "Logo Principal", type := LogoType.primary
       description := some "Logotipo principal extraído del PDF" }]
   else []) ++
  (if anyWordTest ["icon", "isotipo", "símbolo"] text then
    [{ name := "Isotipo", type := LogoType.icon
       description := some "Versión de icono del logotipo" }]
   else []) ++
  (if anyWordTest ["alternativo", "secundario", "monocromático"] text then
    [{ name := "Logo Alternativo", type := LogoType.alternative
       description := some "Versión alternativa del logotipo" }]
   else [])

/-! ### Brand-name extraction (`extractBrandName`)

The three patterns are hand-compiled.  In each, the greedy `\s+`, `\s*`,
`[:\"']?` and capture-group elements never profit from backtracking (shrinking
them re-exposes a character the next element rejects), so they are compiled
greedily; the optional literal groups (`(?:registrada)?`, `(?:de)?`) do need
their fallback-to-empty alternative, which is compiled as an explicit
`Option.orElse` of the two continuations. -/

/-- Character class `[A-Za-z0-9\s]` of the capture groups. -/
def isCaptureChar (c : Char) : Bool :=
  isAsciiLetter c || c.isDigit || isJsWs c

/-- Take greedily at most `n` characters satisfying `p`. -/
def takeUpTo (p : Char → Bool) : Nat → List Char → List Char × List Char
  | 0, cs => ([], cs)
  | _ + 1, [] => ([], [])
  | n + 1, c :: cs =>
    if p c then
      match takeUpTo p n cs with
      | (ds, rest) => (c :: ds, rest)
    else ([], c :: cs)

/-- The shared pattern tail `\s*[:\"']?\s*([A-Z][A-Za-z0-9\s]{0,20})`, with
`first` deciding which characters the leading `[A-Z]` accepts (any ASCII
letter under the `i` flag, upper case only without it). -/
def captureTail (first : Char → Bool) (cs : List Char) : Option (List Char) :=
  let r1 := dropJsWs cs
  let r2 := match r1 with
    | c :: rest => if c = ':' || c = '"' || c = '\'' then rest else r1
    | [] => r1
  match dropJsWs r2 with
  | c :: rest =>
    if first c then
      match takeUpTo isCaptureChar 20 rest with
      | (ds, _) => some (c :: ds)
    else none
  | [] => none

/-- Optional case-insensitive literal: try the continuation after consuming the
literal, and fall back to the continuation in place. -/
def optCiLit (lit : List Char) (k : List Char → Option (List Char))
    (cs : List Char) : Option (List Char) :=
  match ciPrefix lit cs with
  | some rest =>
    match k rest with
    | some r => some r
    | none => k cs
  | none => k cs

/-- Case-sensitive literal prefix match (patterns without the `i` flag). -/
def ciPrefixCase : List Char → List Char → Option (List Char)
  | [], cs => some cs
  | _ :: _, [] => none
  | p :: ps, c :: cs =>
    if p = c then ciPrefixCase ps cs else none

/-- Pattern 1 at a position:
`/marca\s+(?:registrada)?\s*[:\"']?\s*([A-Z][A-Za-z0-9\s]{0,20})/i`. -/
def brandPat1At (cs : List Char) : Option (List Char) :=
  match ciPrefix "marca".data cs with
  | none => none
  | some r0 =>
    match r0 with
    | c :: rest =>
      if isJsWs c then
        optCiLit "registrada".data (captureTail isAsciiLetter) (dropJsWs rest)
      else none
    | [] => none

/-- Pattern 2 at a position (no `i` flag):
`/[Bb]rand\s+[Nn]ame\s*[:\"']?\s*([A-Z][A-Za-z0-9\s]{0,20})/`. -/
def brandPat2At (cs : List Char) : Option (List Char) :=
  match cs with
  | c :: r0 =>
    if c = 'B' || c = 'b' then
      match ciPrefixCase "rand".data r0 with
      | none => none
      | some r1 =>
        match r1 with
        | w :: r2 =>
          if isJsWs w then
            match dropJsWs r2 with
            | n :: r3 =>
              if n = 'N' || n = 'n' then
                match ciPrefixCase "ame".data r3 with
                | none => none
                | some r4 => captureTail (fun d => ('A' ≤ d) && (d ≤ 'Z')) r4
              else none
            | [] => none
          else none
        | [] => none
    else none
  | [] => none

/-- Pattern 3 at a position:
`/[Ll]ogotipo\s+(?:de)?\s*[:\"']?\s*([A-Z][A-Za-z0-9\s]{0,20})/i`. -/
def brandPat3At (cs : List Char) : Option (List Char) :=
  match ciPrefix "logotipo".data cs with
  | none => none
  | some r0 =>
    match r0 with
    | c :: rest =>
      if isJsWs c then
        optCiLit "de".data (captureTail isAsciiLetter) (dropJsWs rest)
      else none
    | [] => none

/-- First match of a positional matcher over the whole text
(`String.prototype.match` without the `g` flag: first position wins). -/
def firstMatch (pat : List Char → Option (List Char)) : List Char → Option (List Char)
  | [] => pat []
  | c :: cs =>
    match pat (c :: cs) with
    | some r => some r
    | none => firstMatch pat cs

/-- Brand-name extraction: try the three patterns in order over the whole
text; the first captured group wins and is trimmed. -/
def extractBrandName (text : String) : Option String :=
  match firstMatch brandPat1At text.data with
  | some r => some (String.mk r).trim
  | none =>
    match firstMatch brandPat2At text.data with
    | some r => some (String.mk r).trim
    | none =>
      match firstMatch brandPat3At text.data with
      | some r => some (String.mk r).trim
      | none => none

/-! ### Design tokens (the synthesizer's data model)

A TypeScript `Record<string, string>` with string keys is modelled as an
association list in JS property-enumeration order.  The numeric token values
(font weights, line heights) are modelled by their canonical decimal strings,
the form in which the only operations ever applied to them — template
interpolation and JSON serialization — observe them.  The `breakpoints`,
`shadows` and `borders` groups of the `DesignTokens` interface are declared in
the source but never constructed and are not modelled. -/

/-- Feedback colour quad. -/
structure FeedbackColors where
  success : String
  warning : String
  error : String
  info : String
deriving DecidableEq, Repr

/-- Colour token groups: four ramps plus the feedback quad. -/
structure ColorTokens where
  primary : List (String × String)
  secondary : List (String × String)
  accent : List (String × String)
  neutral : List (String × String)
  feedback : FeedbackColors
deriving DecidableEq, Repr

/-- Font family slots. -/
structure FontFamilies where
  heading : String
  body : String
  accent : Option String := none
deriving DecidableEq, Repr

/-- Font weight scale (always fully populated by the generator). -/
structure FontWeights where
  light : String
  regular : String
  medium : String
  semibold : String
  bold : String
  extraBold : String
deriving DecidableEq, Repr

/-- Font size scale. -/
structure FontSizes where
  base : String
  xs : String
  sm : String
  md : String
  lg : String
  xl : String
  xxl : String
  xxxl : String
deriving DecidableEq, Repr

/-- Line height triad. -/
structure LineHeights where
  tight : String
  normal : String
  loose : String
deriving DecidableEq, Repr

/-- Typography token block. -/
structure TypographyTokens where
  families : FontFamilies
  weights : FontWeights
  sizes : FontSizes
  lineHeights : LineHeights
deriving DecidableEq, Repr

/-- Spacing token scale. -/
structure SpacingTokens where
  base : String
  xs : String
  sm : String
  md : String
  lg : String
  xl : String
  xxl : String
deriving DecidableEq, Repr

/-- Token set metadata. -/
structure TokenMetadata where
  brandName : String
  version : String
  description : Option String := none
  createdAt : String
deriving DecidableEq, Repr

/-- The complete design token set. -/
structure DesignTokens where
  colors : ColorTokens
  typography : TypographyTokens
  spacing : Option SpacingTokens := none
  metadata : TokenMetadata
deriving DecidableEq, Repr

/-- Baseline colour tokens (`generateDefaultColorTokens`). -/
def generateDefaultColorTokens : ColorTokens where
  primary := [("50", "#e6f0f9"), ("100", "#cce0f3"), ("200", "#99c2e8"),
    ("300", "#66a3dc"), ("400", "#3385d1"), ("500", "#0066c5"),
    ("600", "#00529e"), ("700", "#003d76"), ("800", "#00294f"), ("900", "#001427")]
  secondary := [("50", "#e6f5e6"), ("100", "#ccebcc"), ("200", "#99d699"),
    ("300", "#66c266"), ("400", "#33ad33"), ("500", "#009900"),
    ("600", "#007a00"), ("700", "#005c00"), ("800", "#003d00"), ("900", "#001f00")]
  accent := [("50", "#fef2e6"), ("100", "#fde6cc"), ("200", "#fbcc99"),
    ("300", "#f9b366"), ("400", "#f69933"), ("500", "#f48000"),
    ("600", "#c36600"), ("700", "#924d00"), ("800", "#613300"), ("900", "#311a00")]
  neutral := [("50", "#f7f7f7"), ("100", "#e3e3e3"), ("200", "#c8c8c8"),
    ("300", "#a4a4a4"), ("400", "#818181"), ("500", "#666666"),
    ("600", "#515151"), ("700", "#434343"), ("800", "#383838"), ("900", "#121212"),
    ("white", "#ffffff"), ("black", "#000000")]
  feedback := { success := "#00C851", warning := "#FFBB33"
                error := "#FF4444", info := "#33B5E5" }

/-- Baseline typography tokens (`generateDefaultTypographyTokens`). -/
def generateDefaultTypographyTokens : TypographyTokens where
  families := { heading := "Arial, sans-serif", body := "Helvetica, Arial, sans-serif" }
  weights := { light := "300", regular := "400", medium := "500"
               semibold := "600", bold := "700", extraBold := "800" }
  sizes := { base := "16px", xs := "0.75rem", sm := "0.875rem", md := "1rem"
             lg := "1.25rem", xl := "1.5rem", xxl := "2rem", xxxl := "3rem" }
  lineHeights := { tight := "1.2", normal := "1.5", loose := "2" }

/-- Baseline spacing tokens (`generateDefaultSpacingTokens`). -/
def generateDefaultSpacingTokens : SpacingTokens where
  base := "8px"
  xs := "0.25rem"
  sm := "0.5rem"
  md := "1rem"
  lg := "1.5rem"
  xl := "2rem"
  xxl := "3rem"

/-- JavaScript keyed assignment `m[key] = val` on a record: replace in place
when the key exists, append otherwise. -/
def setKey (m : List (String × String)) (key val : String) : List (String × String) :=
  if m.any fun kv => kv.1 == key then
    m.map fun kv => if kv.1 == key then (kv.1, val) else kv
  else m ++ [(key, val)]

/-- Conversion of extracted colours to colour tokens
(`convertColorsToTokens`): the first signal of each of the `primary`,
`secondary` and `accent` categories overrides the `500` stop of its ramp. -/
def convertColorsToTokens (colors : List ColorInfo) : ColorTokens :=
  let tokens := generateDefaultColorTokens
  let primaryColors := colors.filter fun c => c.category == some ColorCategory.primary
  let secondaryColors := colors.filter fun c => c.category == some ColorCategory.secondary
  let accentColors := colors.filter fun c => c.category == some ColorCategory.accent
  let tokens := match primaryColors with
    | [] => tokens
    | c :: _ => { tokens with primary := setKey tokens.primary "500" c.hex }
  let tokens := match secondaryColors with
    | [] => tokens
    | c :: _ => { tokens with secondary := setKey tokens.secondary "500" c.hex }
  let tokens := match accentColors with
    | [] => tokens
    | c :: _ => { tokens with accent := setKey tokens.accent "500" c.hex }
  tokens

/-- Conversion of extracted typography to typography tokens
(`convertTypographyToTokens`): the first signal of each category overrides the
corresponding family slot, suffixed with `", sans-serif"`. -/
def convertTypographyToTokens (typography : List TypographyInfo) : TypographyTokens :=
  let tokens := generateDefaultTypographyTokens
  let headingFont := typography.find? fun t => t.category == some TypoCategory.heading
  let bodyFont := typography.find? fun t => t.category == some TypoCategory.body
  let accentFont := typography.find? fun t => t.category == some TypoCategory.accent
  let tokens := match headingFont with
    | some f => { tokens with families := { tokens.families with heading := f.family ++ ", sans-serif" } }
    | none => tokens
  let tokens := match bodyFont with
    | some f => { tokens with families := { tokens.families with body := f.family ++ ", sans-serif" } }
    | none => tokens
  let tokens := match accentFont with
    | some f => { tokens with families := { tokens.families with accent := some (f.family ++ ", sans-serif") } }
    | none => tokens
  tokens

/-- Token synthesis (`generateDesignTokens`).  `new Date().toISOString()` is
modelled by the `now` parameter; `brandingData.brandName || 'Marca sin nombre'`
falls back both for an absent and for an empty (JS-falsy) brand name. -/
def generateDesignTokens (brandingData : BrandingData) (now : String) : DesignTokens where
  colors := convertColorsToTokens brandingData.colors
  typography := convertTypographyToTokens brandingData.typography
  spacing := some generateDefaultSpacingTokens
  metadata :=
    { brandName := match brandingData.brandName with
        | some s => if s = "" then "Marca sin nombre" else s
        | none => "Marca sin nombre"
      version := "1.0.0"
      description := none
      createdAt := now }

/-! ### JSON values, `JSON.stringify(·, null, 2)` and `JSON.parse`

The values this program serializes consist of objects, arrays, strings, and
numbers; numbers are carried as their canonical decimal representation (see
the header).  Objects keep fields in JS enumeration order. -/

mutual
/-- JSON value (the fragment the program produces: no booleans or nulls are
ever serialized). -/
inductive Json where
  | jstr (s : String)
  | jnum (s : String)
  | jobj (fields : JFields)
  | jarr (elements : JElems)

/-- Field list of a JSON object, in enumeration order. -/
inductive JFields where
  | fnil
  | fcons (key : String) (value : Json) (rest : JFields)

/-- Element list of a JSON array. -/
inductive JElems where
  | enil
  | econs (value : Json) (rest : JElems)
end

/-- Build a field list from an association list. -/
def jfOfList : List (String × Json) → JFields
  | [] => JFields.fnil
  | kv :: rest => JFields.fcons kv.1 kv.2 (jfOfList rest)

/-- Build an element list from a list of values. -/
def jeOfList : List Json → JElems
  | [] => JElems.enil
  | v :: rest => JElems.econs v (jeOfList rest)

/-- Field list prepended onto another. -/
def jfApp (l : List (String × Json)) (jf : JFields) : JFields :=
  l.foldr (fun kv r => JFields.fcons kv.1 kv.2 r) jf

/-- Escape of one character inside a JSON string literal, exactly as
`JSON.stringify` emits it (quote, backslash, the named control escapes, then
`\u00XX` for the remaining control characters, all else verbatim). -/
def escapeChar (c : Char) : List Char :=
  if c = '"' then ['\\', '"']
  else if c = '\\' then ['\\', '\\']
  else if c = '\n' then ['\\', 'n']
  else if c = '\r' then ['\\', 'r']
  else if c = '\t' then ['\\', 't']
  else if c.toNat = 8 then ['\\', 'b']
  else if c.toNat = 12 then ['\\', 'f']
  else if c.toNat < 32 then
    ['\\', 'u', '0', '0', hexDigitChar (c.toNat / 16), hexDigitChar (c.toNat % 16)]
  else [c]

/-- Escaped body of a string literal. -/
def escChars (cs : List Char) : List Char :=
  cs.flatMap escapeChar

/-- Quoted JSON string literal. -/
def quoteChars (cs : List Char) : List Char :=
  '"' :: escChars cs ++ ['"']

/-- Indentation run. -/
def nSpaces (n : Nat) : List Char :=
  List.replicate n ' '

mutual
/-- Printer for `JSON.stringify(v, null, 2)`; `ind` is the indentation depth
of the line on which the value starts. -/
def printJson (ind : Nat) : Json → List Char
  | Json.jstr s => quoteChars s.data
  | Json.jnum s => s.data
  | Json.jobj JFields.fnil => ['{', '}']
  | Json.jobj (JFields.fcons k v rest) =>
    '{' :: '\n' :: printFields (ind + 2) k v rest ++ '\n' :: (nSpaces ind ++ ['}'])
  | Json.jarr JElems.enil => ['[', ']']
  | Json.jarr (JElems.econs v rest) =>
    '[' :: '\n' :: printElems (ind + 2) v rest ++ '\n' :: (nSpaces ind ++ [']'])
  termination_by j => sizeOf j
  decreasing_by all_goals (simp_wf; omega)

/-- Printer for a nonempty run of object fields at indentation `ind`. -/
def printFields (ind : Nat) (k : String) (v : Json) : JFields → List Char
  | JFields.fnil => nSpaces ind ++ quoteChars k.data ++ ':' :: ' ' :: printJson ind v
  | JFields.fcons k2 v2 rest =>
    nSpaces ind ++ quoteChars k.data ++ ':' :: ' ' :: printJson ind v ++
      ',' :: '\n' :: printFields ind k2 v2 rest
  termination_by fs => sizeOf v + sizeOf fs + 1
  decreasing_by all_goals (simp_wf; omega)

/-- Printer for a nonempty run of array elements at indentation `ind`. -/
def printElems (ind : Nat) (v : Json) : JElems → List Char
  | JElems.enil => nSpaces ind ++ printJson ind v
  | JElems.econs v2 rest =>
    nSpaces ind ++ printJson ind v ++ ',' :: '\n' :: printElems ind v2 rest
  termination_by es => sizeOf v + sizeOf es + 1
  decreasing_by all_goals (simp_wf; omega)
end

/-- JSON insignificant whitespace (space, tab, line feed, carriage return). -/
def isJsonWs (c : Char) : Bool :=
  c == ' ' || c == '\t' || c == '\n' || c == '\r'

/-- Skip insignificant whitespace. -/
def skipWs (cs : List Char) : List Char :=
  cs.dropWhile isJsonWs

/-- Value of a two-character named escape. -/
def escCode (c : Char) : Option Char :=
  if c = '"' then some '"'
  else if c = '\\' then some '\\'
  else if c = '/' then some '/'
  else if c = 'n' then some '\n'
  else if c = 'r' then some '\r'
  else if c = 't' then some '\t'
  else if c = 'b' then some (Char.ofNat 8)
  else if c = 'f' then some (Char.ofNat 12)
  else none

/-- Fuelled body of the string-literal decoder; the fuel dominates the input
length, and every step consumes at least one character. -/
def parseStrBodyF : Nat → List Char → Option (List Char × List Char)
  | 0, _ => none
  | f + 1, cs =>
    match cs with
    | [] => none
    | c :: rest =>
      if c = '"' then some ([], rest)
      else if c = '\\' then
        match rest with
        | [] => none
        | e :: rest2 =>
          if e = 'u' then
            match rest2 with
            | h1 :: h2 :: h3 :: h4 :: rest3 =>
              if isHexDig h1 && isHexDig h2 && isHexDig h3 && isHexDig h4 then
                match parseStrBodyF f rest3 with
                | some (s, r) =>
                  some (Char.ofNat (((hexCharVal h1 * 16 + hexCharVal h2) * 16 +
                    hexCharVal h3) * 16 + hexCharVal h4) :: s, r)
                | none => none
              else none
            | _ => none
          else
            match escCode e with
            | some d =>
              match parseStrBodyF f rest2 with
              | some (s, r) => some (d :: s, r)
              | none => none
            | none => none
      else if c.toNat < 32 then none
      else
        match parseStrBodyF f rest with
        | some (s, r) => some (c :: s, r)
        | none => none

/-- Parse the body of a JSON string literal after its opening quote; returns
the decoded characters and the remainder after the closing quote.  (`\uXXXX`
escapes are decoded as code points; surrogate-pair recombination never arises
on `JSON.stringify` output, which only `\u`-escapes control characters.) -/
def parseStrBody (cs : List Char) : Option (List Char × List Char) :=
  parseStrBodyF cs.length cs

/-- Parse the unsigned part of a JSON number (`digits`, optionally followed by
`.` and more digits), prepending an already-consumed sign. -/
def numTailTok (cs sign : List Char) : Option (List Char × List Char) :=
  match spanDigits cs with
  | ([], _) => none
  | (d :: ds, r) =>
    match r with
    | [] => some (sign ++ d :: ds, [])
    | c :: r1 =>
      if c = '.' then
        match spanDigits r1 with
        | ([], _) => none
        | (f :: fs, r3) => some (sign ++ (d :: ds) ++ '.' :: f :: fs, r3)
      else some (sign ++ d :: ds, c :: r1)

/-- Parse a JSON number token (the integer/fraction fragment the serializer
emits; the values this program serializes never carry exponents). -/
def parseNumTok (cs : List Char) : Option (List Char × List Char) :=
  match cs with
  | [] => none
  | c :: cs1 => if c = '-' then numTailTok cs1 ['-'] else numTailTok (c :: cs1) []

/-- Well-formed unsigned number token: nonempty digits, optional nonempty
fraction, nothing else. -/
def goodNumTail (cs : List Char) : Bool :=
  match spanDigits cs with
  | ([], _) => false
  | (_ :: _, r) =>
    match r with
    | [] => true
    | c :: r1 =>
      if c = '.' then
        match spanDigits r1 with
        | ([], _) => false
        | (_ :: _, r3) => r3.isEmpty
      else false

/-- Well-formed number token with optional leading minus — the canonical
decimal representations this program serializes all satisfy it. -/
def goodNumB : List Char → Bool
  | [] => false
  | c :: cs1 => if c = '-' then goodNumTail cs1 else goodNumTail (c :: cs1)

/-- The remainder after a number token must not begin with a digit or a dot
for the token to be read back whole. -/
def numSafe : List Char → Bool
  | [] => true
  | c :: _ => !(c.isDigit || c == '.')

mutual
/-- Goodness of a JSON value for the round-trip argument: every number leaf is
a well-formed token.  (Arrays never occur in a serialized token set and are
excluded from the verified fragment.) -/
def goodJ : Json → Bool
  | Json.jstr _ => true
  | Json.jnum s => goodNumB s.data
  | Json.jobj jf => goodF jf
  | Json.jarr _ => false

/-- Goodness of an object field list. -/
def goodF : JFields → Bool
  | JFields.fnil => true
  | JFields.fcons _ v rest => goodJ v && goodF rest
end

mutual
/-- Fuelled parser for a JSON value (the number/string/object/array fragment
of the `JSON.parse` grammar). -/
def parseValue : Nat → List Char → Option (Json × List Char)
  | 0, _ => none
  | f + 1, cs =>
    match skipWs cs with
    | [] => none
    | c :: rest =>
      if c = '"' then
        match parseStrBody rest with
        | some (s, r) => some (Json.jstr (String.mk s), r)
        | none => none
      else if c = '{' then
        match skipWs rest with
        | [] => none
        | d :: r2 =>
          if d = '}' then some (Json.jobj JFields.fnil, r2)
          else parseMembers f (d :: r2) []
      else if c = '[' then
        match skipWs rest with
        | [] => none
        | d :: r2 =>
          if d = ']' then some (Json.jarr JElems.enil, r2)
          else parseItems f (d :: r2) []
      else
        match parseNumTok (c :: rest) with
        | some (s, r) => some (Json.jnum (String.mk s), r)
        | none => none

/-- Fuelled parser for the members of an object, after the opening brace. -/
def parseMembers : Nat → List Char → List (String × Json) → Option (Json × List Char)
  | 0, _, _ => none
  | f + 1, cs, acc =>
    match skipWs cs with
    | [] => none
    | c :: rest =>
      if c = '"' then
        match parseStrBody rest with
        | some (k, r1) =>
          match skipWs r1 with
          | [] => none
          | d :: r2 =>
            if d = ':' then
              match parseValue f r2 with
              | some (v, r3) =>
                match skipWs r3 with
                | [] => none
                | e :: r4 =>
                  if e = ',' then parseMembers f r4 (acc ++ [(String.mk k, v)])
                  else if e = '}' then
                    some (Json.jobj (jfOfList (acc ++ [(String.mk k, v)])), r4)
                  else none
              | none => none
            else none
        | none => none
      else none

/-- Fuelled parser for the items of an array, after the opening bracket. -/
def parseItems : Nat → List Char → List Json → Option (Json × List Char)
  | 0, _, _ => none
  | f + 1, cs, acc =>
    match parseValue f cs with
    | some (v, r1) =>
      match skipWs r1 with
      | [] => none
      | e :: r2 =>
        if e = ',' then parseItems f r2 (acc ++ [v])
        else if e = ']' then some (Json.jarr (jeOfList (acc ++ [v])), r2)
        else none
    | none => none
end

/-- The model of `JSON.parse`: parse one value and require only whitespace to
remain. -/
def jsonParse (s : String) : Option Json :=
  match parseValue (s.data.length + 1) s.data with
  | some (j, rest) => if skipWs rest = [] then some j else none
  | none => none

/-! ### JSON views of the data structures (JS object layout, in property
insertion order; optional fields absent when `undefined`) -/

/-- JSON view of a string record.  For the colour ramps the insertion-order
keys `"50"..."900", "white", "black"` coincide with JS enumeration order
(integer-like keys ascending, then string keys in insertion order). -/
def jsonOfPairs (m : List (String × String)) : Json :=
  Json.jobj (jfOfList (m.map fun kv => (kv.1, Json.jstr kv.2)))

/-- Entries of the feedback quad, in declaration order. -/
def feedbackEntries (f : FeedbackColors) : List (String × String) :=
  [("success", f.success), ("warning", f.warning), ("error", f.error), ("info", f.info)]

/-- Entries of the weight scale, in declaration order. -/
def weightEntries (w : FontWeights) : List (String × String) :=
  [("light", w.light), ("regular", w.regular), ("medium", w.medium),
   ("semibold", w.semibold), ("bold", w.bold), ("extraBold", w.extraBold)]

/-- Entries of the size scale, in declaration order. -/
def sizeEntries (s : FontSizes) : List (String × String) :=
  [("base", s.base), ("xs", s.xs), ("sm", s.sm), ("md", s.md),
   ("lg", s.lg), ("xl", s.xl), ("xxl", s.xxl), ("xxxl", s.xxxl)]

/-- Entries of the line-height triad, in declaration order. -/
def lineHeightEntries (l : LineHeights) : List (String × String) :=
  [("tight", l.tight), ("normal", l.normal), ("loose", l.loose)]

/-- Entries of the spacing scale, in declaration order. -/
def spacingEntries (s : SpacingTokens) : List (String × String) :=
  [("base", s.base), ("xs", s.xs), ("sm", s.sm), ("md", s.md),
   ("lg", s.lg), ("xl", s.xl), ("xxl", s.xxl)]

/-- JSON view of a record of numbers (values serialize unquoted). -/
def jsonOfNumPairs (m : List (String × String)) : Json :=
  Json.jobj (jfOfList (m.map fun kv => (kv.1, Json.jnum kv.2)))

/-- JSON view of the colour token group. -/
def jsonOfColors (c : ColorTokens) : Json :=
  Json.jobj (jfOfList
    [("primary", jsonOfPairs c.primary),
     ("secondary", jsonOfPairs c.secondary),
     ("accent", jsonOfPairs c.accent),
     ("neutral", jsonOfPairs c.neutral),
     ("feedback", jsonOfPairs (feedbackEntries c.feedback))])

/-- JSON view of the typography token block. -/
def jsonOfTypography (t : TypographyTokens) : Json :=
  Json.jobj (jfOfList
    [("families", Json.jobj (jfOfList
        ([("heading", Json.jstr t.families.heading),
          ("body", Json.jstr t.families.body)] ++
         (match t.families.accent with
          | some a => [("accent", Json.jstr a)]
          | none => [])))),
     ("weights", jsonOfNumPairs (weightEntries t.weights)),
     ("sizes", jsonOfPairs (sizeEntries t.sizes)),
     ("lineHeights", jsonOfNumPairs (lineHeightEntries t.lineHeights))])

/-- JSON view of a complete design token set, the object layout that
`JSON.stringify` serializes. -/
def jsonOfTokens (t : DesignTokens) : Json :=
  Json.jobj (jfOfList
    ([("colors", jsonOfColors t.colors),
      ("typography", jsonOfTypography t.typography)] ++
     (match t.spacing with
      | some sp => [("spacing", jsonOfPairs (spacingEntries sp))]
      | none => []) ++
     [("metadata", Json.jobj (jfOfList
        ([("brandName", Json.jstr t.metadata.brandName),
          ("version", Json.jstr t.metadata.version)] ++
         (match t.metadata.description with
          | some d => [("description", Json.jstr d)]
          | none => []) ++
         [("createdAt", Json.jstr t.metadata.createdAt)])))]))

/-- Name of a colour category as serialized. -/
def colorCategoryStr : ColorCategory → String
  | ColorCategory.primary => "primary"
  | ColorCategory.secondary => "secondary"
  | ColorCategory.accent => "accent"
  | ColorCategory.neutral => "neutral"

/-- Name of a typography category as serialized. -/
def typoCategoryStr : TypoCategory → String
  | TypoCategory.heading => "heading"
  | TypoCategory.body => "body"
  | TypoCategory.accent => "accent"

/-- Name of a logo kind as serialized. -/
def logoTypeStr : LogoType → String
  | LogoType.primary => "primary"
  | LogoType.secondary => "secondary"
  | LogoType.alternative => "alternative"
  | LogoType.icon => "icon"

/-- JSON view of a colour signal (field order of the source object literals:
`name`, `hex`, then `rgb` and/or `category` when present). -/
def jsonOfColorInfo (c : ColorInfo) : Json :=
  Json.jobj (jfOfList
    ([("name", Json.jstr c.name), ("hex", Json.jstr c.hex)] ++
     (match c.rgb with
      | some r => [("rgb", Json.jstr r)]
      | none => []) ++
     (match c.category with
      | some cat => [("category", Json.jstr (colorCategoryStr cat))]
      | none => [])))

/-- JSON view of a typography signal. -/
def jsonOfTypographyInfo (t : TypographyInfo) : Json :=
  Json.jobj (jfOfList
    ([("family", Json.jstr t.family)] ++
     (match t.category with
      | some cat => [("category", Json.jstr (typoCategoryStr cat))]
      | none => [])))

/-- JSON view of a logo signal. -/
def jsonOfLogoInfo (l : LogoInfo) : Json :=
  Json.jobj (jfOfList
    ([("name", Json.jstr l.name), ("type", Json.jstr (logoTypeStr l.type))] ++
     (match l.description with
      | some d => [("description", Json.jstr d)]
      | none => [])))

/-- JSON view of the branding data returned by `extractBrandingFromPDF`
(object literal `{ colors, typography, logos, brandName }`; an `undefined`
brand name is omitted by `JSON.stringify`). -/
def jsonOfBranding (b : BrandingData) : Json :=
  Json.jobj (jfOfList
    ([("colors", Json.jarr (jeOfList (b.colors.map jsonOfColorInfo))),
      ("typography", Json.jarr (jeOfList (b.typography.map jsonOfTypographyInfo))),
      ("logos", Json.jarr (jeOfList (b.logos.map jsonOfLogoInfo)))] ++
     (match b.brandName with
      | some n => [("brandName", Json.jstr n)]
      | none => [])))

/-! ### Format rendering (`convertTokensToFormat`, `generateCSSVariables`,
`generateSCSSVariables`)

The CSS/SCSS generators are sequences of `css += ...` statements; each `+=`
argument is modelled as one element of a chunk list, and the result is the
concatenation. -/

/-- Declaration lines emitted for one colour ramp. -/
def rampLines (group : String) (ramp : List (String × String)) : List String :=
  ramp.map fun kv => "  --color-" ++ group ++ "-" ++ kv.1 ++ ": " ++ kv.2 ++ ";\n"

/-- The chunks appended to the CSS output, in emission order. -/
def cssChunks (t : DesignTokens) : List String :=
  rampLines "primary" t.colors.primary ++
  rampLines "secondary" t.colors.secondary ++
  rampLines "accent" t.colors.accent ++
  rampLines "neutral" t.colors.neutral ++
  ((feedbackEntries t.colors.feedback).map fun kv =>
    "  --color-" ++ kv.1 ++ ": " ++ kv.2 ++ ";\n") ++
  ["  --font-family-heading: " ++ t.typography.families.heading ++ ";\n",
   "  --font-family-body: " ++ t.typography.families.body ++ ";\n"] ++
  (match t.typography.families.accent with
   | some a => ["  --font-family-accent: " ++ a ++ ";\n"]
   | none => []) ++
  ((weightEntries t.typography.weights).map fun kv =>
    "  --font-weight-" ++ kv.1 ++ ": " ++ kv.2 ++ ";\n") ++
  ((sizeEntries t.typography.sizes).map fun kv =>
    "  --font-size-" ++ kv.1 ++ ": " ++ kv.2 ++ ";\n") ++
  ((lineHeightEntries t.typography.lineHeights).map fun kv =>
    "  --line-height-" ++ kv.1 ++ ": " ++ kv.2 ++ ";\n") ++
  (match t.spacing with
   | some sp => (spacingEntries sp).map fun kv =>
      "  --spacing-" ++ kv.1 ++ ": " ++ kv.2 ++ ";\n"
   | none => [])

/-- Concatenation of the chunks a `+=` loop appends. -/
def strJoin : List String → String
  | [] => ""
  | s :: rest => s ++ strJoin rest

/-- CSS custom-property rendering (`generateCSSVariables`). -/
def generateCSSVariables (t : DesignTokens) : String :=
  ":root \x7b\n" ++ strJoin (cssChunks t) ++ "\x7d\n"

/-- The chunks appended to the SCSS output, in emission order. -/
def scssChunks (t : DesignTokens) : List String :=
  ["// Design Tokens generados a partir de la identidad de marca\n",
   "// Marca: " ++ t.metadata.brandName ++ "\n",
   "// Versión: " ++ t.metadata.version ++ "\n\n",
   "// Colores Primarios\n"] ++
  (t.colors.primary.map fun kv => "$color-primary-" ++ kv.1 ++ ": " ++ kv.2 ++ ";\n") ++
  ["\n// Colores Secundarios\n"] ++
  (t.colors.secondary.map fun kv => "$color-secondary-" ++ kv.1 ++ ": " ++ kv.2 ++ ";\n") ++
  ["\n// Colores de Acento\n"] ++
  (t.colors.accent.map fun kv => "$color-accent-" ++ kv.1 ++ ": " ++ kv.2 ++ ";\n") ++
  ["\n// Colores Neutrales\n"] ++
  (t.colors.neutral.map fun kv => "$color-neutral-" ++ kv.1 ++ ": " ++ kv.2 ++ ";\n") ++
  ["\n// Colores de Feedback\n"] ++
  ((feedbackEntries t.colors.feedback).map fun kv => "$color-" ++ kv.1 ++ ": " ++ kv.2 ++ ";\n") ++
  ["\n// Tipografía\n",
   "$font-family-heading: " ++ t.typography.families.heading ++ ";\n",
   "$font-family-body: " ++ t.typography.families.body ++ ";\n"] ++
  (match t.typography.families.accent with
   | some a => ["$font-family-accent: " ++ a ++ ";\n"]
   | none => []) ++
  ["\n// Pesos tipográficos\n"] ++
  ((weightEntries t.typography.weights).map fun kv => "$font-weight-" ++ kv.1 ++ ": " ++ kv.2 ++ ";\n") ++
  ["\n// Tamaños de fuente\n"] ++
  ((sizeEntries t.typography.sizes).map fun kv => "$font-size-" ++ kv.1 ++ ": " ++ kv.2 ++ ";\n") ++
  ["\n// Alturas de línea\n"] ++
  ((lineHeightEntries t.typography.lineHeights).map fun kv => "$line-height-" ++ kv.1 ++ ": " ++ kv.2 ++ ";\n") ++
  (match t.spacing with
   | some sp => ["\n// Espaciado\n"] ++
      (spacingEntries sp).map fun kv => "$spacing-" ++ kv.1 ++ ": " ++ kv.2 ++ ";\n"
   | none => [])

/-- SCSS variable rendering (`generateSCSSVariables`). -/
def generateSCSSVariables (t : DesignTokens) : String :=
  strJoin (scssChunks t)

/-- Boolean prefix test on character lists (used to recognise declaration
lines in rendered output). -/
def leadsWith : List Char → List Char → Bool
  | [], _ => true
  | _ :: _, [] => false
  | p :: ps, c :: cs => p == c && leadsWith ps cs

/-- Two character lists disagree at some position below both lengths. -/
def clashes : List Char → List Char → Bool
  | p :: ps, c :: cs => p != c || clashes ps cs
  | _, _ => false

/-- Format dispatch (`convertTokensToFormat`): `json`, `css`, `scss`, and a
default falling back to the JSON serialization. -/
def convertTokensToFormat (tokens : DesignTokens) (format : String) : String :=
  if format = "json" then String.mk (printJson 0 (jsonOfTokens tokens))
  else if format = "css" then generateCSSVariables tokens
  else if format = "scss" then generateSCSSVariables tokens
  else String.mk (printJson 0 (jsonOfTokens tokens))

/-! ### Tool handlers -/

/-- Extraction options of the pdf tool. -/
structure ExtractOptions where
  extractColors : Option Bool := none
  extractTypography : Option Bool := none
  extractLogos : Option Bool := none
deriving DecidableEq, Repr

/-- Outcome of consulting the file-system / pdf-parse collaborator about a
path: the file may be missing, decoding may fail with a message, or decoding
yields the document text. -/
inductive PdfReadOutcome where
  | missing
  | failure (msg : String)
  | success (text : String)
deriving DecidableEq, Repr

/-- Error values flowing to a handler's catch block: an `McpError` (whose
`message` the SDK prefixes with the protocol code) or a plain `Error`. -/
inductive JsError where
  | invalidParams (msg : String)
  | simple (msg : String)
deriving DecidableEq, Repr

/-- The `message` property of an error value (`-32602` is the protocol's
invalid-parameters code). -/
def JsError.message : JsError → String
  | JsError.invalidParams m => "MCP error -32602: " ++ m
  | JsError.simple m => m

/-- Tool response: one text block, marked as an error result or not. -/
structure ToolResponse where
  text : String
  isError : Bool
deriving DecidableEq, Repr

/-- An option object field is treated as enabled unless explicitly `false`
(the source's `options.extractX !== false`, with `options` defaulting to an
empty object). -/
def optNotFalse (o : Option ExtractOptions) (f : ExtractOptions → Option Bool) : Bool :=
  match o with
  | none => true
  | some eo => f eo != some false

/-- Branding extraction from a PDF (`extractBrandingFromPDF`): consult the
collaborator, then run the category extractors that are not suppressed. -/
def extractBrandingFromPDF (env : String → PdfReadOutcome) (pdfPath : String)
    (options : Option ExtractOptions) : Except JsError BrandingData :=
  match env pdfPath with
  | PdfReadOutcome.missing =>
    Except.error (JsError.simple ("El archivo PDF no existe: " ++ pdfPath))
  | PdfReadOutcome.failure m => Except.error (JsError.simple m)
  | PdfReadOutcome.success text =>
    Except.ok
      { colors := if optNotFalse options (fun o => o.extractColors) then extractColors text else []
        typography := if optNotFalse options (fun o => o.extractTypography) then extractTypography text else []
        logos := if optNotFalse options (fun o => o.extractLogos) then extractLogos text else []
        spacing := none
        brandName := extractBrandName text
        brandTagline := none }

/-- Arguments of the `extract_pdf_branding` tool. -/
structure PdfToolArgs where
  pdfPath : Option String := none
  extractOptions : Option ExtractOptions := none
deriving DecidableEq, Repr

/-- The `extract_pdf_branding` handler: reject a missing (or JS-falsy empty)
path with an invalid-parameters error before any collaborator contact,
otherwise extract and serialize; every thrown error is caught and returned as
an error-flagged response.  The second component lists the paths passed to the
collaborator. -/
def extractPdfBrandingTool (env : String → PdfReadOutcome) (args : PdfToolArgs) :
    ToolResponse × List String :=
  match args.pdfPath with
  | none =>
    ({ text := "Error: " ++ (JsError.invalidParams "Se requiere la ruta al archivo PDF (pdfPath)").message
       isError := true }, [])
  | some p =>
    if p = "" then
      ({ text := "Error: " ++ (JsError.invalidParams "Se requiere la ruta al archivo PDF (pdfPath)").message
         isError := true }, [])
    else
      match extractBrandingFromPDF env p args.extractOptions with
      | Except.error e => ({ text := "Error: " ++ e.message, isError := true }, [p])
      | Except.ok bd =>
        ({ text := String.mk (printJson 0 (jsonOfBranding bd)), isError := false }, [p])

/-- Figma overlay data: the shallow spread `{...brandingData, ...figmaData}`
can override any branding field whose key is present (only the fields the
pipeline consumes are modelled). -/
structure FigmaData where
  colors : Option (List ColorInfo) := none
  typography : Option (List TypographyInfo) := none
  logos : Option (List LogoInfo) := none
  brandName : Option (Option String) := none
deriving DecidableEq, Repr

/-- Shallow merge of figma data over branding data (figma keys win). -/
def mergeFigma (bd : BrandingData) (f : FigmaData) : BrandingData :=
  { bd with
    colors := f.colors.getD bd.colors
    typography := f.typography.getD bd.typography
    logos := f.logos.getD bd.logos
    brandName := f.brandName.getD bd.brandName }

/-- Arguments of the `generate_design_tokens` tool. -/
structure GenTokensArgs where
  brandingData : Option BrandingData := none
  figmaData : Option FigmaData := none
  format : Option String := none
deriving DecidableEq, Repr

/-- The `generate_design_tokens` handler: reject missing branding data with an
invalid-parameters error, otherwise merge, synthesize and render; the format
defaults to `json`.  There is no collaborator, and every thrown error is
caught and returned as an error-flagged response. -/
def generateDesignTokensTool (args : GenTokensArgs) (now : String) : ToolResponse :=
  match args.brandingData with
  | none =>
    { text := "Error: " ++ (JsError.invalidParams "Se requieren los datos de branding (brandingData)").message
      isError := true }
  | some bd =>
    let combined := match args.figmaData with
      | none => bd
      | some f => mergeFigma bd f
    { text := convertTokensToFormat (generateDesignTokens combined now) (args.format.getD "json")
      isError := false }

/-! ### Concrete profiles used by individual claim checks -/

/-- A profile carrying both a primary- and a secondary-category signal. -/
def c1BadProfile : BrandingData where
  colors :=
    [{ name := "a", hex := "#ff0000", rgb := none, category := some ColorCategory.primary },
     { name := "b", hex := "#00ff00", rgb := none, category := some ColorCategory.secondary }]
  typography := []
  logos := []

/-- The end-to-end profile: one primary colour `#ff0000`, nothing else. -/
def c1RedProfile : BrandingData where
  colors :=
    [{ name := "Color 1", hex := "#ff0000", rgb := none, category := some ColorCategory.primary }]
  typography := []
  logos := []

/-- The empty profile (zero signals), used to check default preservation. -/
def c8EmptyProfile : BrandingData where
  colors := []
  typography := []
  logos := []

/-- The association list underlying a nonempty field run, used to relate the
member parser's accumulator to the object it returns. -/
def fieldsList : String → Json → JFields → List (String × Json)
  | k, v, JFields.fnil => [(k, v)]
  | k, v, JFields.fcons k2 v2 rest => (k, v) :: fieldsList k2 v2 rest

/-! ## Theorems -/

/-! ### Shared helper lemmas -/

/-- The RGB pass only ever appends, and everything it appends is an
uncategorised signal. -/
theorem rgbPass_ext (ms : List (List Char × List Char × List Char)) :
    ∀ acc, ∃ tail, rgbPass ms acc = acc ++ tail ∧ ∀ c ∈ tail, c.category = none := by
  induction ms with
  | nil => exact fun acc => ⟨[], by simp [rgbPass], by simp⟩
  | cons m rest ih =>
    intro acc
    obtain ⟨d1, d2, d3⟩ := m
    simp only [rgbPass]
    split
    · exact ih acc
    · obtain ⟨tail, h1, h2⟩ := ih (acc ++ [rgbSignal d1 d2 d3 (acc.length + 1)])
      refine ⟨rgbSignal d1 d2 d3 (acc.length + 1) :: tail, by simpa using h1, ?_⟩
      intro c hc
      rcases List.mem_cons.mp hc with h | h
      · subst h; rfl
      · exact h2 c h

/-- Projection of the pushed RGB signal's hex value. -/
theorem rgbSignal_hex (d1 d2 d3 : List Char) (n : Nat) :
    (rgbSignal d1 d2 d3 n).hex = rgbToHex (natOfDigits d1) (natOfDigits d2) (natOfDigits d3) :=
  rfl

/-! ### C6: synthesis is idempotent modulo the timestamp -/

/-- C6: running synthesis twice on the same profile yields token sets that are
identical in every field except the freshly stamped `createdAt` timestamp: the
first result is exactly the second with only `metadata.createdAt` replaced. -/
theorem c6_synthesis_idempotent (p : BrandingData) (t1 t2 : String) :
    generateDesignTokens p t1 =
      { generateDesignTokens p t2 with
        metadata := { (generateDesignTokens p t2).metadata with createdAt := t1 } } :=
  rfl

/-! ### C2: hex-pattern colour extraction -/

/-- C2: every hex-colour match becomes, in document order, a positionally
named signal whose category is `primary`, `secondary`, `accent` by index —
these signals form the initial segment of the extraction output — and the text
`#111111 #222222 #333333` yields exactly those three signals. -/
theorem c2_hex_extraction :
    (∀ text : String,
      (extractColors text).take (hexMatches text.data).length =
        (hexMatches text.data).enum.map fun p =>
          { name := "Color " ++ toString (p.1 + 1)
            hex := String.mk p.2
            rgb := none
            category := some (if p.1 = 0 then ColorCategory.primary
              else if p.1 = 1 then ColorCategory.secondary else ColorCategory.accent) }) ∧
    extractColors "#111111 #222222 #333333" =
      [{ name := "Color 1", hex := "#111111", rgb := none, category := some ColorCategory.primary },
       { name := "Color 2", hex := "#222222", rgb := none, category := some ColorCategory.secondary },
       { name := "Color 3", hex := "#333333", rgb := none, category := some ColorCategory.accent }] := by
  constructor
  · intro text
    obtain ⟨tail, h1, _⟩ := rgbPass_ext (rgbMatches text.data) (hexSignals text)
    have hlen : (hexSignals text).length = (hexMatches text.data).length := by
      simp [hexSignals]
    calc (extractColors text).take (hexMatches text.data).length
        = ((hexSignals text) ++ tail).take (hexSignals text).length := by
          rw [extractColors, h1, hlen]
      _ = hexSignals text := List.take_left _ _
      _ = _ := rfl
  · rfl

/-! ### C1: effect of a primary colour signal on synthesis -/

/-- C1 (counterexample): the claim quantifies over every profile containing a
primary-category signal and asserts that all ramps other than `primary` stay
at the baseline; a profile that additionally carries a secondary-category
signal satisfies the claim's hypothesis yet gets its `secondary[500]` stop
overridden. -/
theorem c1_counterexample :
    (∃ c ∈ c1BadProfile.colors, c.category = some ColorCategory.primary) ∧
    (generateDesignTokens c1BadProfile "2024-01-01T00:00:00.000Z").colors.secondary ≠
      generateDefaultColorTokens.secondary := by
  decide

/-- C1 (amended): for a profile whose colour list contains a primary-category
signal and no secondary- or accent-category signal, synthesis replaces exactly
the `primary[500]` stop with the hex of the first primary signal, leaves every
other stop and every other ramp (secondary, accent, neutral, feedback) at the
baseline, and — when the profile has no typography signals — leaves the
typography block at the baseline. -/
theorem c1_primary_override (p : BrandingData) (now : String) (c0 : ColorInfo)
    (cs : List ColorInfo)
    (hp : p.colors.filter (fun c => c.category == some ColorCategory.primary) = c0 :: cs)
    (hs : p.colors.filter (fun c => c.category == some ColorCategory.secondary) = [])
    (ha : p.colors.filter (fun c => c.category == some ColorCategory.accent) = []) :
    (generateDesignTokens p now).colors =
      { generateDefaultColorTokens with
        primary := [("50", "#e6f0f9"), ("100", "#cce0f3"), ("200", "#99c2e8"),
          ("300", "#66a3dc"), ("400", "#3385d1"), ("500", c0.hex),
          ("600", "#00529e"), ("700", "#003d76"), ("800", "#00294f"), ("900", "#001427")] } ∧
    (p.typography = [] → (generateDesignTokens p now).typography = generateDefaultTypographyTokens) := by
  constructor
  · show convertColorsToTokens p.colors = _
    simp only [convertColorsToTokens, hp, hs, ha]
    rfl
  · intro h
    show convertTypographyToTokens p.typography = _
    rw [h]
    rfl

/-- C1 (witness): the amended theorem applied to the end-to-end profile with
the single primary colour `#ff0000`. -/
theorem c1_witness :
    (c1RedProfile.colors.filter (fun c => c.category == some ColorCategory.primary) =
      [{ name := "Color 1", hex := "#ff0000", rgb := none,
         category := some ColorCategory.primary }]) ∧
    (generateDesignTokens c1RedProfile "2024-01-01T00:00:00.000Z").colors =
      { generateDefaultColorTokens with
        primary := [("50", "#e6f0f9"), ("100", "#cce0f3"), ("200", "#99c2e8"),
          ("300", "#66a3dc"), ("400", "#3385d1"), ("500", "#ff0000"),
          ("600", "#00529e"), ("700", "#003d76"), ("800", "#00294f"), ("900", "#001427")] } ∧
    (generateDesignTokens c1RedProfile "2024-01-01T00:00:00.000Z").typography =
      generateDefaultTypographyTokens :=
  ⟨by decide,
   (c1_primary_override c1RedProfile "2024-01-01T00:00:00.000Z"
     { name := "Color 1", hex := "#ff0000", rgb := none, category := some ColorCategory.primary }
     [] (by decide) (by decide) (by decide)).1,
   (c1_primary_override c1RedProfile "2024-01-01T00:00:00.000Z"
     { name := "Color 1", hex := "#ff0000", rgb := none, category := some ColorCategory.primary }
     [] (by decide) (by decide) (by decide)).2 rfl⟩

/-! ### C3: RGB conversion and deduplication -/

/-- Fuel irrelevance of the hexadecimal digit loop: any fuel above the value
produces the same digits. -/
theorem natToHexF_extra (f1 f2 n : Nat) (h1 : n < f1) (h2 : n < f2) :
    natToHexF f1 n = natToHexF f2 n := by
  induction n using Nat.strongRecOn generalizing f1 f2 with
  | _ n ih =>
    cases f1 with
    | zero => omega
    | succ g1 =>
      cases f2 with
      | zero => omega
      | succ g2 =>
        simp only [natToHexF]
        split
        · rfl
        · rename_i hn
          rw [ih (n / 16) (by omega) g1 g2 (by omega) (by omega)]

/-- Decomposition of JavaScript hexadecimal printing: digits of `a` followed by
`k` zero-padded digits of `m`. -/
theorem natToHex_mul_add (k : Nat) : ∀ a m, 0 < a → m < 16 ^ k →
    natToHex (a * 16 ^ k + m) = natToHex a ++ padHex k m := by
  induction k with
  | zero =>
    intro a m _ hm
    interval_cases m
    simp [padHex]
  | succ k ih =>
    intro a m ha hm
    have hx : (16:Nat) ^ (k + 1) = 16 ^ k * 16 := pow_succ 16 k
    have hxpos : 0 < (16:Nat) ^ k := Nat.pos_pow_of_pos k (by omega)
    have hupos : 0 < a * 16 ^ k := Nat.mul_pos ha hxpos
    have h16 : ¬ (a * 16 ^ (k + 1) + m < 16) := by
      rw [hx]
      nlinarith
    have hdiv : (a * 16 ^ (k + 1) + m) / 16 = a * 16 ^ k + m / 16 := by
      rw [hx, ← Nat.mul_assoc]
      generalize a * 16 ^ k = y
      omega
    have hmod : (a * 16 ^ (k + 1) + m) % 16 = m % 16 := by
      rw [hx, ← Nat.mul_assoc]
      generalize a * 16 ^ k = y
      omega
    have hmlt : m / 16 < 16 ^ k := by
      rw [hx] at hm
      omega
    have hbound : a * 16 ^ k + m / 16 < a * 16 ^ (k + 1) + m := by
      rw [hx, ← Nat.mul_assoc]
      generalize a * 16 ^ k = y at hupos ⊢
      omega
    simp only [natToHex, natToHexF]
    rw [if_neg h16, hdiv, hmod,
      natToHexF_extra (a * 16 ^ (k + 1) + m) (a * 16 ^ k + m / 16 + 1)
        (a * 16 ^ k + m / 16) hbound (by omega)]
    have : natToHexF (a * 16 ^ k + m / 16 + 1) (a * 16 ^ k + m / 16) =
        natToHex (a * 16 ^ k + m / 16) := rfl
    rw [this, ih a (m / 16) ha hmlt]
    simp only [padHex, List.append_assoc]
    congr 1

/-- C3: an in-range RGB match converts to `#` followed by the six-digit
zero-padded hex of the packed channels `r<<16 | g<<8 | b`; the RGB pass only
appends uncategorised signals after the existing (hex-pattern) signals, a
match is appended exactly when no earlier signal has the same hex value
case-insensitively; and concretely `RGB(0, 102, 197)` becomes `#0066c5`, is
dropped when `#0066c5` is already present, and is kept (uncategorised, after
all hex-pattern signals) otherwise. -/
theorem c3_rgb_conversion :
    (∀ r g b : Nat, r ≤ 255 → g ≤ 255 → b ≤ 255 →
      rgbToHex r g b = "#" ++ String.mk (padHex 6 (r <<< 16 ||| g <<< 8 ||| b))) ∧
    (∀ ms acc, ∃ tail, rgbPass ms acc = acc ++ tail ∧ ∀ c ∈ tail, c.category = none) ∧
    (∀ d1 d2 d3 acc,
      (rgbPass [(d1, d2, d3)] acc = acc ↔
        ∃ c ∈ acc, lowerStr c.hex =
          lowerStr (rgbToHex (natOfDigits d1) (natOfDigits d2) (natOfDigits d3))) ∧
      ((¬ ∃ c ∈ acc, lowerStr c.hex =
          lowerStr (rgbToHex (natOfDigits d1) (natOfDigits d2) (natOfDigits d3))) →
        rgbPass [(d1, d2, d3)] acc = acc ++ [rgbSignal d1 d2 d3 (acc.length + 1)])) ∧
    rgbToHex 0 102 197 = "#0066c5" ∧
    extractColors "#0066c5 RGB(0, 102, 197)" =
      [{ name := "Color 1", hex := "#0066c5", rgb := none,
         category := some ColorCategory.primary }] ∧
    extractColors "RGB(0, 102, 197)" =
      [{ name := "Color RGB 1", hex := "#0066c5", rgb := some "rgb(0, 102, 197)",
         category := none }] := by
  refine ⟨?_, rgbPass_ext, ?_, rfl, rfl, rfl⟩
  · intro r g b hr hg hb
    have e1 : g <<< 8 = 2 ^ 8 * g := by rw [Nat.shiftLeft_eq]; ring
    have e2 : r <<< 16 = 2 ^ 16 * r := by rw [Nat.shiftLeft_eq]; ring
    have hb2 : b < 2 ^ 8 := by norm_num; omega
    have h1 : (g <<< 8) ||| b = 2 ^ 8 * g + b := by
      rw [e1, ← Nat.mul_add_lt_is_or hb2 g]
    have hm2 : 2 ^ 8 * g + b < 2 ^ 16 := by norm_num; omega
    have h2 : r <<< 16 ||| g <<< 8 ||| b = 2 ^ 16 * r + (2 ^ 8 * g + b) := by
      rw [Nat.lor_assoc, h1, e2, ← Nat.mul_add_lt_is_or hm2 r]
    have hsum : r <<< 16 ||| g <<< 8 ||| b = r * 65536 + g * 256 + b := by
      rw [h2]; norm_num; ring
    have hshift : (1 <<< 24) + (r <<< 16) + (g <<< 8) + b =
        1 * 16 ^ 6 + (r * 65536 + g * 256 + b) := by
      rw [e1, e2, Nat.shiftLeft_eq]; norm_num; ring
    have hlt : r * 65536 + g * 256 + b < 16 ^ 6 := by norm_num; nlinarith
    rw [rgbToHex, hshift, natToHex_mul_add 6 1 _ (by omega) hlt, hsum]
    rfl
  · intro d1 d2 d3 acc
    have hiff : (acc.any fun c =>
        lowerStr c.hex == lowerStr (rgbToHex (natOfDigits d1) (natOfDigits d2) (natOfDigits d3))) = true ↔
        ∃ c ∈ acc, lowerStr c.hex =
          lowerStr (rgbToHex (natOfDigits d1) (natOfDigits d2) (natOfDigits d3)) := by
      simp [List.any_eq_true]
    constructor
    · constructor
      · intro h
        by_contra hnot
        rw [← hiff] at hnot
        simp only [rgbPass, rgbSignal_hex, Bool.not_eq_true] at h
        rw [if_neg (by simp [hnot])] at h
        have := congrArg List.length h
        simp at this
      · intro hex
        rw [← hiff] at hex
        simp only [rgbPass, rgbSignal_hex]
        rw [if_pos hex]
    · intro hnot
      rw [← hiff] at hnot
      simp only [rgbPass, rgbSignal_hex]
      rw [if_neg (by simpa using hnot)]

/-- C3 (witness): the packing equation applied at the documented example
`RGB(0, 102, 197)`, together with a concrete skip and a concrete keep. -/
theorem c3_witness :
    (0 ≤ 255 ∧ 102 ≤ 255 ∧ 197 ≤ 255) ∧
    rgbToHex 0 102 197 = "#" ++ String.mk (padHex 6 (0 <<< 16 ||| 102 <<< 8 ||| 197)) ∧
    (rgbPass [(['1'], ['2'], ['3'])]
        [{ name := "Color 1", hex := "#010203", rgb := none, category := none }] =
      [{ name := "Color 1", hex := "#010203", rgb := none, category := none }]) := by
  refine ⟨⟨by decide, by decide, by decide⟩,
    c3_rgb_conversion.1 0 102 197 (by decide) (by decide) (by decide), ?_⟩
  exact (c3_rgb_conversion.2.2.1 ['1'] ['2'] ['3']
    [{ name := "Color 1", hex := "#010203", rgb := none, category := none }]).1.mpr
    (by decide)

/-! ### C4: case-insensitive deduplication -/

/-- C4 (counterexample): the hex-pattern pass performs no deduplication, so a
text repeating the same colour in different case yields two signals with the
same case-insensitive hex value. -/
theorem c4_counterexample :
    ¬ List.Pairwise (fun a b => lowerStr a.hex ≠ lowerStr b.hex)
      (extractColors "#aaa #AAA") := by
  decide

/-- Only the RGB pass deduplicates: every signal it appends differs
case-insensitively from every earlier signal. -/
theorem rgbPass_nodup (ms : List (List Char × List Char × List Char)) :
    ∀ acc i j ci cj, acc.length ≤ j → i < j →
      (rgbPass ms acc).get? i = some ci → (rgbPass ms acc).get? j = some cj →
      lowerStr ci.hex ≠ lowerStr cj.hex := by
  induction ms with
  | nil =>
    intro acc i j ci cj hj hij hi hjj
    rw [rgbPass] at hjj
    have := List.get?_eq_none.mpr hj
    rw [this] at hjj
    exact absurd hjj (by simp)
  | cons m rest ih =>
    intro acc i j ci cj hj hij hi hjj
    obtain ⟨d1, d2, d3⟩ := m
    rw [rgbPass] at hi hjj
    simp only [rgbSignal_hex] at hi hjj
    by_cases hdup : (acc.any fun c => lowerStr c.hex ==
        lowerStr (rgbToHex (natOfDigits d1) (natOfDigits d2) (natOfDigits d3))) = true
    · rw [if_pos hdup] at hi hjj
      exact ih acc i j ci cj hj hij hi hjj
    · rw [if_neg hdup] at hi hjj
      rcases Nat.lt_or_ge j (acc.length + 1) with hjlt | hjge
      · have hjeq : j = acc.length := by omega
        subst hjeq
        obtain ⟨tail, ht, _⟩ := rgbPass_ext rest (acc ++ [rgbSignal d1 d2 d3 (acc.length + 1)])
        rw [ht] at hi hjj
        have hcj : cj = rgbSignal d1 d2 d3 (acc.length + 1) := by
          rw [List.get?_append (by simp)] at hjj
          rw [List.get?_concat_length] at hjj
          exact (Option.some_inj.mp hjj).symm
        have hci : ci ∈ acc := by
          rw [List.get?_append (by simp; omega)] at hi
          rw [List.get?_append (by omega)] at hi
          exact List.get?_mem hi
        have hnd : ∀ c ∈ acc, ¬ (lowerStr c.hex =
            lowerStr (rgbToHex (natOfDigits d1) (natOfDigits d2) (natOfDigits d3))) := by
          intro c hc
          simp only [List.any_eq_true, Bool.not_eq_true] at hdup
          push_neg at hdup
          have := hdup c hc
          simpa using this
        rw [hcj]
        exact hnd ci hci
      · exact ih _ i j ci cj (by simpa using hjge) hij hi hjj

/-- C4 (amended): within a single extraction pass no RGB-derived signal
duplicates the case-insensitive hex value of any signal occurring before it;
the hex-pattern pass itself, however, performs no deduplication (see the
counterexample), so the invariant holds exactly for every pair whose later
member lies beyond the hex-pattern segment. -/
theorem c4_dedup_amended (text : String) (i j : Nat) (ci cj : ColorInfo)
    (hj : (hexSignals text).length ≤ j) (hij : i < j)
    (hi : (extractColors text).get? i = some ci)
    (hjj : (extractColors text).get? j = some cj) :
    lowerStr ci.hex ≠ lowerStr cj.hex :=
  rgbPass_nodup (rgbMatches text.data) (hexSignals text) i j ci cj hj hij hi hjj

/-- C4 (witness): the amended invariant applied to a text with one hex signal
and one RGB signal. -/
theorem c4_witness :
    (hexSignals "#111111 RGB(34, 68, 102)").length ≤ 1 ∧ 0 < 1 ∧
    (extractColors "#111111 RGB(34, 68, 102)").get? 0 =
      some { name := "Color 1", hex := "#111111", rgb := none, category := some ColorCategory.primary } ∧
    (extractColors "#111111 RGB(34, 68, 102)").get? 1 =
      some { name := "Color RGB 2", hex := "#224466", rgb := some "rgb(34, 68, 102)", category := none } ∧
    lowerStr "#111111" ≠ lowerStr "#224466" :=
  ⟨by decide, by decide, by decide, by decide,
   c4_dedup_amended "#111111 RGB(34, 68, 102)" 0 1
     { name := "Color 1", hex := "#111111", rgb := none, category := some ColorCategory.primary }
     { name := "Color RGB 2", hex := "#224466", rgb := some "rgb(34, 68, 102)", category := none }
     (by decide) (by decide) (by decide) (by decide)⟩

/-! ### C5: typography extraction -/

/-- The typography fold emits exactly one signal per detected font, in font
list order, categorised by emission index. -/
theorem typoFold_eq (text : String) (fonts : List String) : ∀ acc : List TypographyInfo,
    fonts.foldl
      (fun acc font =>
        if wordTest font text then
          acc ++ [{ family := font, category := some (typoCat acc.length) }]
        else acc) acc =
      acc ++ ((fonts.filter fun f => wordTest f text).enumFrom acc.length).map
        (fun p => { family := p.2, category := some (typoCat p.1) }) := by
  induction fonts with
  | nil => intro acc; simp
  | cons f fs ih =>
    intro acc
    by_cases hf : wordTest f text
    · simp only [List.foldl_cons, List.filter_cons, hf, if_pos, List.enumFrom_cons,
        List.map_cons, ite_true]
      rw [ih]
      simp [List.append_assoc]
    · simp only [List.foldl_cons, List.filter_cons, hf, List.enumFrom_cons,
        List.map_cons, ite_false, Bool.false_eq_true]
      rw [ih acc]

/-- C5: typography extraction emits one signal per font of the fixed list
found in the text, in fixed-list order, the first categorised `heading` and
the rest `body`; with zero matches the result is exactly the Arial/Helvetica
default pair, as it is concretely on a text with no recognised family name. -/
theorem c5_typography_extraction :
    (∀ text : String, extractTypography text =
      if (commonFonts.filter fun f => wordTest f text) = [] then
        [{ family := "Arial", category := some TypoCategory.heading },
         { family := "Helvetica", category := some TypoCategory.body }]
      else ((commonFonts.filter fun f => wordTest f text).enum.map
        fun p => { family := p.2, category := some (typoCat p.1) })) ∧
    extractTypography "no recognised family names in this text" =
      [{ family := "Arial", category := some TypoCategory.heading },
       { family := "Helvetica", category := some TypoCategory.body }] := by
  constructor
  · intro text
    simp only [extractTypography]
    rw [typoFold_eq text commonFonts []]
    simp only [List.nil_append]
    by_cases hf : (commonFonts.filter fun f => wordTest f text) = []
    · rw [hf]
      simp
    · rw [if_neg hf]
      have hne : (((commonFonts.filter fun f => wordTest f text).enumFrom 0).map
          (fun p => ({ family := p.2, category := some (typoCat p.1) } : TypographyInfo))).isEmpty = false := by
        rcases List.exists_cons_of_ne_nil hf with ⟨a, l, hl⟩
        rw [hl]
        simp [List.enumFrom_cons]
      rw [if_neg (by simp [hne])]
      rfl
  · rfl

/-! ### C10: explicit `false` extraction options suppress a category -/

/-- C10: when a category's extraction option is explicitly `false`, the
corresponding list of the extraction result is empty — in particular the
Arial/Helvetica default pair, which is produced inside the suppressed
typography pass, is not emitted. -/
theorem c10_option_suppression (env : String → PdfReadOutcome) (p text : String)
    (o : ExtractOptions) (henv : env p = PdfReadOutcome.success text) :
    ∃ bd, extractBrandingFromPDF env p (some o) = Except.ok bd ∧
      (o.extractTypography = some false → bd.typography = []) ∧
      (o.extractColors = some false → bd.colors = []) ∧
      (o.extractLogos = some false → bd.logos = []) := by
  unfold extractBrandingFromPDF
  rw [henv]
  refine ⟨_, rfl, ?_, ?_, ?_⟩ <;> intro h <;> simp [optNotFalse, h]

/-- C10 (witness): all three suppressions on a text whose typography pass
would otherwise produce the default pair. -/
theorem c10_witness :
    ((fun _ : String => PdfReadOutcome.success "plain words") "doc.pdf" =
      PdfReadOutcome.success "plain words") ∧
    (∃ bd, extractBrandingFromPDF (fun _ => PdfReadOutcome.success "plain words") "doc.pdf"
        (some { extractColors := some false, extractTypography := some false,
                extractLogos := some false }) = Except.ok bd ∧
      (some false = some false → bd.typography = []) ∧
      (some false = some false → bd.colors = []) ∧
      (some false = some false → bd.logos = [])) :=
  ⟨rfl, c10_option_suppression (fun _ => PdfReadOutcome.success "plain words") "doc.pdf"
    "plain words" _ rfl⟩

/-! ### C9: missing required parameters and error flagging -/

/-- C9: a call without the required parameter yields the invalid-parameters
error response with no collaborator call (empty trace) for both operations;
and each handler returns a non-error response exactly when its required
parameter is present (and, for the pdf tool, the collaborator succeeds) — all
failures surface as error-flagged responses of the total handler functions,
never as thrown faults. -/
theorem c9_invalid_params :
    (∀ env opts, extractPdfBrandingTool env { pdfPath := none, extractOptions := opts } =
      ({ text := "Error: MCP error -32602: Se requiere la ruta al archivo PDF (pdfPath)",
         isError := true }, [])) ∧
    (∀ fig fmt now, generateDesignTokensTool
        { brandingData := none, figmaData := fig, format := fmt } now =
      { text := "Error: MCP error -32602: Se requieren los datos de branding (brandingData)",
        isError := true }) ∧
    (∀ env args, (extractPdfBrandingTool env args).1.isError = false ↔
      ∃ p text, args.pdfPath = some p ∧ p ≠ "" ∧ env p = PdfReadOutcome.success text) ∧
    (∀ args now, (generateDesignTokensTool args now).isError = false ↔
      args.brandingData ≠ none) := by
  refine ⟨fun env opts => rfl, fun fig fmt now => rfl, ?_, ?_⟩
  · intro env args
    obtain ⟨pp, opts⟩ := args
    cases pp with
    | none => simp [extractPdfBrandingTool]
    | some p =>
      by_cases hp : p = ""
      · subst hp
        simp [extractPdfBrandingTool]
      · cases henv : env p with
        | missing =>
          simp [extractPdfBrandingTool, extractBrandingFromPDF, hp, henv]
        | failure m =>
          simp [extractPdfBrandingTool, extractBrandingFromPDF, hp, henv]
        | success t =>
          simp only [extractPdfBrandingTool, extractBrandingFromPDF, hp, henv]
          simp [hp]
          exact ⟨t, henv⟩
  · intro args now
    obtain ⟨bd, fig, fmt⟩ := args
    cases bd with
    | none => simp [generateDesignTokensTool]
    | some b => simp [generateDesignTokensTool]

/-! ### C8: flatVariables rendering -/

/-- Empty string is a left identity of append. -/
theorem empty_append_str (s : String) : "" ++ s = s := by
  cases s
  rfl

/-- Splitting a chunk concatenation around one member. -/
theorem strJoin_split (x : String) : ∀ xs : List String, x ∈ xs →
    ∃ a b, strJoin xs = a ++ (x ++ b) := by
  intro xs
  induction xs with
  | nil => intro h; cases h
  | cons y rest ih =>
    intro h
    rcases List.mem_cons.mp h with h | h
    · subst h
      refine ⟨"", strJoin rest, ?_⟩
      rw [empty_append_str]
      rfl
    · obtain ⟨a, b, hab⟩ := ih h
      exact ⟨y ++ a, b, by simp only [strJoin, hab, String.append_assoc]⟩

/-- Any chunk of the CSS output occurs verbatim inside the rendered text. -/
theorem css_of_chunk (t : DesignTokens) (l : String) (h : l ∈ cssChunks t) :
    ∃ pre post, generateCSSVariables t = pre ++ (l ++ post) := by
  obtain ⟨a, b, hab⟩ := strJoin_split l (cssChunks t) h
  refine ⟨":root \x7b\n" ++ a, b ++ "\x7d\n", ?_⟩
  rw [generateCSSVariables, hab]
  simp only [String.append_assoc]

/-- A clash below both lengths refutes the prefix test whatever follows. -/
theorem clashes_leadsWith (pat : List Char) : ∀ a, clashes pat a = true →
    ∀ r, leadsWith pat (a ++ r) = false := by
  induction pat with
  | nil => intro a h r; cases a <;> simp [clashes] at h
  | cons q ps ih =>
    intro a h r
    cases a with
    | nil => simp [clashes] at h
    | cons c cs =>
      simp only [clashes, Bool.or_eq_true] at h
      simp only [List.cons_append, leadsWith]
      cases hqc : q == c with
      | false => simp
      | true =>
        have hcl : clashes ps cs = true := by
          rcases h with h | h
          · rw [bne] at h
            rw [hqc] at h
            simp at h
          · exact h
        simp only [Bool.true_and]
        exact ih cs hcl r

/-- A list is a prefix of itself followed by anything. -/
theorem leadsWith_self : ∀ p r : List Char, leadsWith p (p ++ r) = true := by
  intro p
  induction p with
  | nil => intro r; rfl
  | cons c cs ih => intro r; simp [leadsWith, ih]

/-- A prefix of a list is a prefix of any extension of it. -/
theorem leadsWith_of_append (p : List Char) : ∀ q r, leadsWith p q = true →
    leadsWith p (q ++ r) = true := by
  induction p with
  | nil => intro q r _; rfl
  | cons c cs ih =>
    intro q r h
    cases q with
    | nil => simp [leadsWith] at h
    | cons d ds =>
      simp only [leadsWith, Bool.and_eq_true] at h
      simp only [List.cons_append, leadsWith, h.1, Bool.true_and]
      exact ih ds r h.2

/-- Branch killer: a rendered chunk whose literal head clashes with the probe
is not probe-prefixed. -/
theorem chunk_no_lead (pat : List Char) (pfx : String) (r : List Char)
    (h : clashes pat pfx.data = true) : leadsWith pat (pfx.data ++ r) = false :=
  clashes_leadsWith pat pfx.data h r

/-- The accent font-family declaration appears in the CSS chunks exactly when
the accent family slot is populated. -/
theorem accent_chunk_iff (t : DesignTokens) :
    (∃ l ∈ cssChunks t, leadsWith "  --font-family-accent".data l.data = true) ↔
      t.typography.families.accent ≠ none := by
  constructor
  · rintro ⟨l, hl, hlw⟩ haccn
    cases hsp : t.spacing with
    | none =>
      simp only [cssChunks, haccn, hsp, rampLines, List.append_assoc, List.nil_append,
        List.append_nil, List.mem_append, List.mem_map, List.mem_cons, List.not_mem_nil,
        or_false] at hl
      rcases hl with ⟨kv, _, rfl⟩ | ⟨kv, _, rfl⟩ | ⟨kv, _, rfl⟩ | ⟨kv, _, rfl⟩ | ⟨kv, _, rfl⟩ |
        (rfl | rfl) | ⟨kv, _, rfl⟩ | ⟨kv, _, rfl⟩ | ⟨kv, _, rfl⟩ <;>
        · simp only [String.data_append, List.append_assoc] at hlw
          rw [chunk_no_lead _ _ _ (by decide)] at hlw
          exact absurd hlw (by decide)
    | some sp =>
      simp only [cssChunks, haccn, hsp, rampLines, List.append_assoc, List.nil_append,
        List.append_nil, List.mem_append, List.mem_map, List.mem_cons, List.not_mem_nil,
        or_false] at hl
      rcases hl with ⟨kv, _, rfl⟩ | ⟨kv, _, rfl⟩ | ⟨kv, _, rfl⟩ | ⟨kv, _, rfl⟩ | ⟨kv, _, rfl⟩ |
        (rfl | rfl) | ⟨kv, _, rfl⟩ | ⟨kv, _, rfl⟩ | ⟨kv, _, rfl⟩ | ⟨kv, _, rfl⟩ <;>
        · simp only [String.data_append, List.append_assoc] at hlw
          rw [chunk_no_lead _ _ _ (by decide)] at hlw
          exact absurd hlw (by decide)
  · intro hacc
    cases hacca : t.typography.families.accent with
    | none => exact absurd hacca hacc
    | some a =>
      refine ⟨"  --font-family-accent: " ++ a ++ ";\n", ?_, ?_⟩
      · simp [cssChunks, hacca]
      · simp only [String.data_append, List.append_assoc]
        exact leadsWith_of_append _ _ _ (by decide)

/-- The spacing declarations appear in the CSS chunks exactly when the spacing
group is populated. -/
theorem spacing_chunk_iff (t : DesignTokens) :
    (∃ l ∈ cssChunks t, leadsWith "  --spacing-".data l.data = true) ↔ t.spacing ≠ none := by
  constructor
  · rintro ⟨l, hl, hlw⟩ hspn
    cases hacca : t.typography.families.accent with
    | none =>
      simp only [cssChunks, hacca, hspn, rampLines, List.append_assoc, List.nil_append,
        List.append_nil, List.mem_append, List.mem_map, List.mem_cons, List.not_mem_nil,
        or_false] at hl
      rcases hl with ⟨kv, _, rfl⟩ | ⟨kv, _, rfl⟩ | ⟨kv, _, rfl⟩ | ⟨kv, _, rfl⟩ | ⟨kv, _, rfl⟩ |
        (rfl | rfl) | ⟨kv, _, rfl⟩ | ⟨kv, _, rfl⟩ | ⟨kv, _, rfl⟩ <;>
        · simp only [String.data_append, List.append_assoc] at hlw
          rw [chunk_no_lead _ _ _ (by decide)] at hlw
          exact absurd hlw (by decide)
    | some a =>
      simp only [cssChunks, hacca, hspn, rampLines, List.append_assoc, List.nil_append,
        List.append_nil, List.mem_append, List.mem_map, List.mem_cons, List.not_mem_nil,
        or_false] at hl
      rcases hl with ⟨kv, _, rfl⟩ | ⟨kv, _, rfl⟩ | ⟨kv, _, rfl⟩ | ⟨kv, _, rfl⟩ | ⟨kv, _, rfl⟩ |
        (rfl | rfl) | rfl | ⟨kv, _, rfl⟩ | ⟨kv, _, rfl⟩ | ⟨kv, _, rfl⟩ <;>
        · simp only [String.data_append, List.append_assoc] at hlw
          rw [chunk_no_lead _ _ _ (by decide)] at hlw
          exact absurd hlw (by decide)
  · intro hsp
    cases hspa : t.spacing with
    | none => exact absurd hspa hsp
    | some sp =>
      refine ⟨"  --spacing-" ++ "base" ++ ": " ++ sp.base ++ ";\n", ?_, ?_⟩
      · have hmem : ("  --spacing-" ++ "base" ++ ": " ++ sp.base ++ ";\n") ∈
            (spacingEntries sp).map (fun kv => "  --spacing-" ++ kv.1 ++ ": " ++ kv.2 ++ ";\n") :=
          List.mem_map.mpr ⟨("base", sp.base), by simp [spacingEntries], rfl⟩
        simp only [cssChunks, hspa, List.mem_append]
        exact Or.inr hmem
      · simp only [String.data_append, List.append_assoc]
        exact leadsWith_of_append _ _ _ (by decide)

/-- C8: for every token set the flatVariables rendering contains one
declaration line for every ramp entry and every scale key (colour ramps,
feedback colours, font weights, font sizes, line heights, and spacing when
present); synthesis preserves every baseline ramp key, so every baseline stop
is rendered even for a profile with zero signals; and the rendering carries an
accent font-family line, respectively a spacing block, exactly when those
optional fields are present in the token set. -/
theorem c8_css_rendering :
    (∀ p now,
      ((generateDesignTokens p now).colors.primary.map Prod.fst =
        generateDefaultColorTokens.primary.map Prod.fst) ∧
      ((generateDesignTokens p now).colors.secondary.map Prod.fst =
        generateDefaultColorTokens.secondary.map Prod.fst) ∧
      ((generateDesignTokens p now).colors.accent.map Prod.fst =
        generateDefaultColorTokens.accent.map Prod.fst) ∧
      ((generateDesignTokens p now).colors.neutral.map Prod.fst =
        generateDefaultColorTokens.neutral.map Prod.fst)) ∧
    (∀ t : DesignTokens, ∀ g ramp, (g, ramp) ∈
        [("primary", t.colors.primary), ("secondary", t.colors.secondary),
         ("accent", t.colors.accent), ("neutral", t.colors.neutral)] →
      ∀ kv ∈ ramp, ∃ pre post, generateCSSVariables t =
        pre ++ (("  --color-" ++ g ++ "-" ++ kv.1 ++ ": " ++ kv.2 ++ ";\n") ++ post)) ∧
    (∀ t : DesignTokens,
      (feedbackEntries t.colors.feedback).map Prod.fst =
        ["success", "warning", "error", "info"] ∧
      (weightEntries t.typography.weights).map Prod.fst =
        ["light", "regular", "medium", "semibold", "bold", "extraBold"] ∧
      (sizeEntries t.typography.sizes).map Prod.fst =
        ["base", "xs", "sm", "md", "lg", "xl", "xxl", "xxxl"] ∧
      (lineHeightEntries t.typography.lineHeights).map Prod.fst =
        ["tight", "normal", "loose"] ∧
      (∀ sp, t.spacing = some sp → (spacingEntries sp).map Prod.fst =
        ["base", "xs", "sm", "md", "lg", "xl", "xxl"])) ∧
    (∀ t : DesignTokens, ∀ kv ∈ feedbackEntries t.colors.feedback,
      ∃ pre post, generateCSSVariables t =
        pre ++ (("  --color-" ++ kv.1 ++ ": " ++ kv.2 ++ ";\n") ++ post)) ∧
    (∀ t : DesignTokens, ∀ kv ∈ weightEntries t.typography.weights,
      ∃ pre post, generateCSSVariables t =
        pre ++ (("  --font-weight-" ++ kv.1 ++ ": " ++ kv.2 ++ ";\n") ++ post)) ∧
    (∀ t : DesignTokens, ∀ kv ∈ sizeEntries t.typography.sizes,
      ∃ pre post, generateCSSVariables t =
        pre ++ (("  --font-size-" ++ kv.1 ++ ": " ++ kv.2 ++ ";\n") ++ post)) ∧
    (∀ t : DesignTokens, ∀ kv ∈ lineHeightEntries t.typography.lineHeights,
      ∃ pre post, generateCSSVariables t =
        pre ++ (("  --line-height-" ++ kv.1 ++ ": " ++ kv.2 ++ ";\n") ++ post)) ∧
    (∀ t : DesignTokens, ∀ sp, t.spacing = some sp → ∀ kv ∈ spacingEntries sp,
      ∃ pre post, generateCSSVariables t =
        pre ++ (("  --spacing-" ++ kv.1 ++ ": " ++ kv.2 ++ ";\n") ++ post)) ∧
    (∀ t : DesignTokens,
      (∃ l ∈ cssChunks t, leadsWith "  --font-family-accent".data l.data = true) ↔
        t.typography.families.accent ≠ none) ∧
    (∀ t : DesignTokens,
      (∃ l ∈ cssChunks t, leadsWith "  --spacing-".data l.data = true) ↔
        t.spacing ≠ none) := by
  refine ⟨?_, ?_, ?_, ?_, ?_, ?_, ?_, ?_, accent_chunk_iff, spacing_chunk_iff⟩
  · intro p now
    show (convertColorsToTokens p.colors).primary.map Prod.fst = _ ∧
      (convertColorsToTokens p.colors).secondary.map Prod.fst = _ ∧
      (convertColorsToTokens p.colors).accent.map Prod.fst = _ ∧
      (convertColorsToTokens p.colors).neutral.map Prod.fst = _
    simp only [convertColorsToTokens]
    cases h1 : p.colors.filter (fun c => c.category == some ColorCategory.primary) <;>
      cases h2 : p.colors.filter (fun c => c.category == some ColorCategory.secondary) <;>
        cases h3 : p.colors.filter (fun c => c.category == some ColorCategory.accent) <;>
          exact ⟨rfl, rfl, rfl, rfl⟩
  · intro t g ramp hmem kv hkv
    apply css_of_chunk
    simp only [List.mem_cons, List.not_mem_nil, or_false, Prod.mk.injEq] at hmem
    rcases hmem with ⟨rfl, rfl⟩ | ⟨rfl, rfl⟩ | ⟨rfl, rfl⟩ | ⟨rfl, rfl⟩
    · have hline := List.mem_map_of_mem
        (fun kv => "  --color-" ++ "primary" ++ "-" ++ kv.1 ++ ": " ++ kv.2 ++ ";\n") hkv
      simp only [cssChunks, rampLines, List.mem_append]
      tauto
    · have hline := List.mem_map_of_mem
        (fun kv => "  --color-" ++ "secondary" ++ "-" ++ kv.1 ++ ": " ++ kv.2 ++ ";\n") hkv
      simp only [cssChunks, rampLines, List.mem_append]
      tauto
    · have hline := List.mem_map_of_mem
        (fun kv => "  --color-" ++ "accent" ++ "-" ++ kv.1 ++ ": " ++ kv.2 ++ ";\n") hkv
      simp only [cssChunks, rampLines, List.mem_append]
      tauto
    · have hline := List.mem_map_of_mem
        (fun kv => "  --color-" ++ "neutral" ++ "-" ++ kv.1 ++ ": " ++ kv.2 ++ ";\n") hkv
      simp only [cssChunks, rampLines, List.mem_append]
      tauto
  · exact fun t => ⟨rfl, rfl, rfl, rfl, fun sp _ => rfl⟩
  · intro t kv hkv
    apply css_of_chunk
    have hline := List.mem_map_of_mem
      (fun kv => "  --color-" ++ kv.1 ++ ": " ++ kv.2 ++ ";\n") hkv
    simp only [cssChunks, List.mem_append]
    tauto
  · intro t kv hkv
    apply css_of_chunk
    have hline := List.mem_map_of_mem
      (fun kv => "  --font-weight-" ++ kv.1 ++ ": " ++ kv.2 ++ ";\n") hkv
    simp only [cssChunks, List.mem_append]
    tauto
  · intro t kv hkv
    apply css_of_chunk
    have hline := List.mem_map_of_mem
      (fun kv => "  --font-size-" ++ kv.1 ++ ": " ++ kv.2 ++ ";\n") hkv
    simp only [cssChunks, List.mem_append]
    tauto
  · intro t kv hkv
    apply css_of_chunk
    have hline := List.mem_map_of_mem
      (fun kv => "  --line-height-" ++ kv.1 ++ ": " ++ kv.2 ++ ";\n") hkv
    simp only [cssChunks, List.mem_append]
    tauto
  · intro t sp hsp kv hkv
    apply css_of_chunk
    have hline := List.mem_map_of_mem
      (fun kv => "  --spacing-" ++ kv.1 ++ ": " ++ kv.2 ++ ";\n") hkv
    simp only [cssChunks, hsp, List.mem_append]
    tauto

/-- C8 (witness): a baseline primary stop of the zero-signal profile is
rendered as a declaration line. -/
theorem c8_witness :
    (("primary", (generateDesignTokens c8EmptyProfile "t").colors.primary) ∈
      [("primary", (generateDesignTokens c8EmptyProfile "t").colors.primary),
       ("secondary", (generateDesignTokens c8EmptyProfile "t").colors.secondary),
       ("accent", (generateDesignTokens c8EmptyProfile "t").colors.accent),
       ("neutral", (generateDesignTokens c8EmptyProfile "t").colors.neutral)]) ∧
    (("50", "#e6f0f9") ∈ (generateDesignTokens c8EmptyProfile "t").colors.primary) ∧
    (∃ pre post, generateCSSVariables (generateDesignTokens c8EmptyProfile "t") =
      pre ++ (("  --color-" ++ "primary" ++ "-" ++ "50" ++ ": " ++ "#e6f0f9" ++ ";\n") ++ post)) :=
  ⟨by decide, by decide,
   c8_css_rendering.2.1 (generateDesignTokens c8EmptyProfile "t") "primary"
     (generateDesignTokens c8EmptyProfile "t").colors.primary (by decide)
     ("50", "#e6f0f9") (by decide)⟩

/-! ### C7: round trip of the structured (JSON) format -/

/-- Rebuilding a string from its character data is the identity. -/
theorem mk_data (s : String) : String.mk s.data = s := by
  cases s
  rfl

/-- Whitespace skipping stops at a non-whitespace head. -/
theorem skipWs_cons_not (c : Char) (cs : List Char) (h : isJsonWs c = false) :
    skipWs (c :: cs) = c :: cs := by
  simp [skipWs, List.dropWhile_cons, h]

/-- Whitespace skipping runs through a whitespace block. -/
theorem skipWs_ws_append (ws : List Char) (cs : List Char)
    (h : ∀ c ∈ ws, isJsonWs c = true) : skipWs (ws ++ cs) = skipWs cs := by
  induction ws with
  | nil => rfl
  | cons w rest ih =>
    simp only [List.cons_append, skipWs, List.dropWhile_cons,
      h w (List.mem_cons_self w rest)]
    exact ih fun c hc => h c (List.mem_cons_of_mem w hc)

/-- Spaces are whitespace. -/
theorem nSpaces_ws (n : Nat) : ∀ c ∈ nSpaces n, isJsonWs c = true := by
  intro c hc
  rw [nSpaces] at hc
  rw [List.eq_of_mem_replicate hc]
  rfl

/-- Whitespace skipping is idempotent. -/
theorem skipWs_idem (cs : List Char) : skipWs (skipWs cs) = skipWs cs := by
  induction cs with
  | nil => rfl
  | cons c rest ih =>
    cases h : isJsonWs c with
    | true =>
      simp only [skipWs, List.dropWhile_cons, h]
      exact ih
    | false =>
      simp [skipWs, List.dropWhile_cons, h]

/-- The digit span decomposes its input: digits taken, all taken are digits,
and the remainder starts with a non-digit. -/
theorem spanDigits_sound (cs : List Char) :
    cs = (spanDigits cs).1 ++ (spanDigits cs).2 ∧
    (∀ c ∈ (spanDigits cs).1, c.isDigit = true) ∧
    (∀ c, (spanDigits cs).2.head? = some c → c.isDigit = false) := by
  induction cs with
  | nil => exact ⟨rfl, fun c hc => absurd hc (List.not_mem_nil c), fun c hc => by cases hc⟩
  | cons c rest ih =>
    cases hd : c.isDigit with
    | true =>
      obtain ⟨h1, h2, h3⟩ := ih
      refine ⟨?_, ?_, ?_⟩
      · simp only [spanDigits, hd, if_true]
        cases hs : spanDigits rest
        rw [hs] at h1
        simpa using h1
      · intro x hx
        simp only [spanDigits, hd, if_true] at hx
        cases hs : spanDigits rest
        rw [hs] at hx h2
        simp only at hx
        rcases List.mem_cons.mp hx with h | h
        · subst h; exact hd
        · exact h2 x h
      · intro x hx
        simp only [spanDigits, hd, if_true] at hx
        cases hs : spanDigits rest
        rw [hs] at hx h3
        exact h3 x hx
    | false =>
      refine ⟨by simp [spanDigits, hd], by simp [spanDigits, hd], ?_⟩
      intro x hx
      simp only [spanDigits, hd, if_false, Bool.false_eq_true, List.head?_cons,
        Option.some_inj] at hx
      rw [← hx]
      exact hd

/-- The digit span of a digit block followed by a non-digit remainder is
exactly that block. -/
theorem spanDigits_split (ds : List Char) (rest : List Char)
    (hd : ∀ c ∈ ds, c.isDigit = true)
    (hr : ∀ c, rest.head? = some c → c.isDigit = false) :
    spanDigits (ds ++ rest) = (ds, rest) := by
  induction ds with
  | nil =>
    cases rest with
    | nil => rfl
    | cons c r => simp [spanDigits, hr c rfl]
  | cons d ds ih =>
    have hih := ih fun c hc => hd c (List.mem_cons_of_mem d hc)
    simp only [List.cons_append, spanDigits, hd d (List.mem_cons_self d ds), if_true,
      List.append_eq, hih]

/-- A digit is not JSON whitespace. -/
theorem isDigit_not_jsonWs (c : Char) (h : c.isDigit = true) : isJsonWs c = false := by
  cases hw : isJsonWs c with
  | false => rfl
  | true =>
    exfalso
    simp only [isJsonWs, Bool.or_eq_true, beq_iff_eq] at hw
    rcases hw with ((rfl | rfl) | rfl) | rfl <;> exact absurd h (by decide)

/-- A digit is none of the value-delimiting characters. -/
theorem isDigit_not_delim (c : Char) (h : c.isDigit = true) :
    c ≠ '"' ∧ c ≠ '{' ∧ c ≠ '[' := by
  refine ⟨fun hc => ?_, fun hc => ?_, fun hc => ?_⟩ <;>
    (subst hc; exact absurd h (by decide))

/-- Hex digits produced by the escape printer are recognised. -/
theorem isHexDig_hexDigitChar : ∀ n, n < 16 → isHexDig (hexDigitChar n) = true := by
  decide

/-- Reading back a printed hex digit recovers its value. -/
theorem hexCharVal_hexDigitChar : ∀ n, n < 16 → hexCharVal (hexDigitChar n) = n := by
  decide

/-- Decoding a fully escaped string with sufficient fuel recovers it. -/
theorem parseStrBodyF_escape (s : List Char) : ∀ f rest,
    (escChars s ++ '"' :: rest).length ≤ f →
    parseStrBodyF f (escChars s ++ '"' :: rest) = some (s, rest) := by
  induction s with
  | nil =>
    intro f rest h
    simp only [escChars, List.flatMap_nil, List.nil_append] at h ⊢
    cases f with
    | zero => simp at h
    | succ f1 => simp [parseStrBodyF]
  | cons c cs ih =>
    intro f rest h
    have hesc : escChars (c :: cs) = escapeChar c ++ escChars cs := by simp [escChars]
    rw [hesc, List.append_assoc] at h ⊢
    by_cases h1 : c = '"'
    · subst h1
      rw [show escapeChar '"' = ['\\', '"'] from rfl] at h ⊢
      cases f with
      | zero => simp at h
      | succ f1 =>
        have hih := ih f1 rest (by simp at h ⊢; omega)
        simp [parseStrBodyF, escCode, hih]
    · by_cases h2 : c = '\\'
      · subst h2
        rw [show escapeChar '\\' = ['\\', '\\'] from rfl] at h ⊢
        cases f with
        | zero => simp at h
        | succ f1 =>
          have hih := ih f1 rest (by simp at h ⊢; omega)
          simp [parseStrBodyF, escCode, hih]
      · by_cases h3 : c = '\n'
        · subst h3
          rw [show escapeChar '\n' = ['\\', 'n'] from rfl] at h ⊢
          cases f with
          | zero => simp at h
          | succ f1 =>
            have hih := ih f1 rest (by simp at h ⊢; omega)
            simp [parseStrBodyF, escCode, hih]
        · by_cases h4 : c = '\r'
          · subst h4
            rw [show escapeChar '\r' = ['\\', 'r'] from rfl] at h ⊢
            cases f with
            | zero => simp at h
            | succ f1 =>
              have hih := ih f1 rest (by simp at h ⊢; omega)
              simp [parseStrBodyF, escCode, hih]
          · by_cases h5 : c = '\t'
            · subst h5
              rw [show escapeChar '\t' = ['\\', 't'] from rfl] at h ⊢
              cases f with
              | zero => simp at h
              | succ f1 =>
                have hih := ih f1 rest (by simp at h ⊢; omega)
                simp [parseStrBodyF, escCode, hih]
            · by_cases h6 : c.toNat = 8
              · have hc8 : c = Char.ofNat 8 := by rw [← h6, Char.ofNat_toNat]
                subst hc8
                rw [show escapeChar (Char.ofNat 8) = ['\\', 'b'] from rfl] at h ⊢
                cases f with
                | zero => simp at h
                | succ f1 =>
                  have hih := ih f1 rest (by simp at h ⊢; omega)
                  simp [parseStrBodyF, escCode, hih]
              · by_cases h7 : c.toNat = 12
                · have hc12 : c = Char.ofNat 12 := by rw [← h7, Char.ofNat_toNat]
                  subst hc12
                  rw [show escapeChar (Char.ofNat 12) = ['\\', 'f'] from rfl] at h ⊢
                  cases f with
                  | zero => simp at h
                  | succ f1 =>
                    have hih := ih f1 rest (by simp at h ⊢; omega)
                    simp [parseStrBodyF, escCode, hih]
                · by_cases h8 : c.toNat < 32
                  · rw [show escapeChar c = ['\\', 'u', '0', '0',
                        hexDigitChar (c.toNat / 16), hexDigitChar (c.toNat % 16)] from by
                      simp [escapeChar, h1, h2, h3, h4, h5, h6, h7, h8]] at h ⊢
                    cases f with
                    | zero => simp at h
                    | succ f1 =>
                      have hih := ih f1 rest (by simp at h ⊢; omega)
                      have hdiv : c.toNat / 16 < 16 := by omega
                      have hmod : c.toNat % 16 < 16 := by omega
                      have hv0 : hexCharVal '0' = 0 := by decide
                      have hval : (((0:Nat) * 16 + 0) * 16 + c.toNat / 16) * 16 +
                          c.toNat % 16 = c.toNat := by omega
                      simp [parseStrBodyF, hih, isHexDig_hexDigitChar _ hdiv,
                        isHexDig_hexDigitChar _ hmod, hexCharVal_hexDigitChar _ hdiv,
                        hexCharVal_hexDigitChar _ hmod, hv0, hval]
                      exact ⟨by decide, by
                        rw [show c.toNat / 16 * 16 + c.toNat % 16 = c.toNat from by omega]
                        exact Char.ofNat_toNat c⟩
                  · rw [show escapeChar c = [c] from by
                      simp [escapeChar, h1, h2, h3, h4, h5, h6, h7, h8]] at h ⊢
                    cases f with
                    | zero => simp at h
                    | succ f1 =>
                      have hih := ih f1 rest (by simp at h ⊢; omega)
                      simp [parseStrBodyF, h1, h2, h8, hih]

/-- Decoding a fully escaped string recovers it. -/
theorem parseStrBody_escape (s : List Char) (rest : List Char) :
    parseStrBody (escChars s ++ '"' :: rest) = some (s, rest) :=
  parseStrBodyF_escape s (escChars s ++ '"' :: rest).length rest (Nat.le_refl _)

/-- A well-formed unsigned number token followed by a safe remainder is read
back whole. -/
theorem numTailTok_append (cs rest sign : List Char) (hg : goodNumTail cs = true)
    (hsafe : numSafe rest = true) :
    numTailTok (cs ++ rest) sign = some (sign ++ cs, rest) := by
  obtain ⟨hsplit, hdig, hnd⟩ := spanDigits_sound cs
  rcases hP : spanDigits cs with ⟨P, R⟩
  rw [hP] at hsplit hdig hnd
  simp only at hsplit hdig hnd
  have hrest : ∀ c, rest.head? = some c → c.isDigit = false ∧ c ≠ '.' := by
    intro c hc
    cases rest with
    | nil => cases hc
    | cons r0 rr =>
      simp only [List.head?_cons, Option.some_inj] at hc
      subst hc
      rw [numSafe] at hsafe
      simp only [Bool.not_eq_true', Bool.or_eq_false_iff, beq_eq_false_iff_ne] at hsafe
      exact hsafe
  have hrsafe : ∀ c, rest.head? = some c → c.isDigit = false :=
    fun c hc => (hrest c hc).1
  unfold goodNumTail at hg
  rw [hP] at hg
  cases P with
  | nil => simp at hg
  | cons d ds =>
    cases R with
    | nil =>
      rw [List.append_nil] at hsplit
      subst hsplit
      unfold numTailTok
      rw [spanDigits_split (d :: ds) rest hdig hrsafe]
      cases rest with
      | nil => rfl
      | cons r0 rr =>
        have hdot : ¬ r0 = '.' := (hrest r0 rfl).2
        simp [hdot]
    | cons c R1 =>
      by_cases hc : c = '.'
      · subst hc
        simp at hg
        rcases hS2 : spanDigits R1 with ⟨F, R3⟩
        rw [hS2] at hg
        cases F with
        | nil => simp at hg
        | cons f fs =>
          have hR3 : R3 = [] := by simpa using hg
          subst hR3
          obtain ⟨hsp2, hdig2, _⟩ := spanDigits_sound R1
          rw [hS2] at hsp2 hdig2
          simp only [List.append_nil] at hsp2
          subst hsp2
          subst hsplit
          have hsp3 : spanDigits ((f :: fs) ++ rest) = (f :: fs, rest) :=
            spanDigits_split (f :: fs) rest hdig2 hrsafe
          have hcat : ((d :: ds) ++ ('.' :: f :: fs)) ++ rest
              = (d :: ds) ++ ('.' :: ((f :: fs) ++ rest)) := by simp
          have hsp4 : spanDigits ((d :: ds) ++ ('.' :: ((f :: fs) ++ rest)))
              = (d :: ds, '.' :: ((f :: fs) ++ rest)) :=
            spanDigits_split (d :: ds) _ hdig (by
              intro x hx
              simp only [List.head?_cons, Option.some_inj] at hx
              subst hx
              decide)
          have hsp3x : spanDigits (f :: (fs ++ rest)) = (f :: fs, rest) := by
            rw [← List.cons_append]
            exact hsp3
          unfold numTailTok
          rw [hcat, hsp4]
          simp [hsp3x, List.append_assoc]
      · simp [hc] at hg

/-- A well-formed number token followed by a safe remainder is read back
whole. -/
theorem parseNumTok_append (cs rest : List Char) (hg : goodNumB cs = true)
    (hsafe : numSafe rest = true) : parseNumTok (cs ++ rest) = some (cs, rest) := by
  cases cs with
  | nil => simp [goodNumB] at hg
  | cons c cs1 =>
    rw [goodNumB] at hg
    by_cases hc : c = '-'
    · subst hc
      rw [if_pos rfl] at hg
      rw [List.cons_append, parseNumTok, if_pos rfl,
        numTailTok_append cs1 rest ['-'] hg hsafe]
      rfl
    · rw [if_neg hc] at hg
      rw [List.cons_append, parseNumTok, if_neg hc]
      have := numTailTok_append (c :: cs1) rest [] hg hsafe
      rw [List.cons_append] at this
      rw [this]
      rfl

/-- A well-formed number token starts with a minus sign or a digit. -/
theorem goodNum_head (cs : List Char) (hg : goodNumB cs = true) :
    ∃ c cs1, cs = c :: cs1 ∧ (c = '-' ∨ c.isDigit = true) := by
  cases cs with
  | nil => simp [goodNumB] at hg
  | cons c cs1 =>
    refine ⟨c, cs1, rfl, ?_⟩
    by_cases hc : c = '-'
    · exact Or.inl hc
    · right
      rw [goodNumB, if_neg hc] at hg
      unfold goodNumTail at hg
      rcases hP : spanDigits (c :: cs1) with ⟨P, R⟩
      rw [hP] at hg
      cases P with
      | nil => simp at hg
      | cons d ds =>
        obtain ⟨hsplit, hdig, _⟩ := spanDigits_sound (c :: cs1)
        rw [hP] at hsplit hdig
        simp only at hsplit hdig
        have := hdig d (List.mem_cons_self d ds)
        have hcd : c = d := by
          have := congrArg List.head? hsplit
          simpa using this
        rw [hcd]
        exact hdig d (List.mem_cons_self d ds)

/-- The value parser ignores leading whitespace. -/
theorem parseValue_ws (f : Nat) (ws cs : List Char)
    (hws : ∀ c ∈ ws, isJsonWs c = true) :
    parseValue f (ws ++ cs) = parseValue f cs := by
  cases f with
  | zero => rfl
  | succ f1 =>
    simp only [parseValue]
    rw [skipWs_ws_append ws cs hws]

/-- The member parser is insensitive to pre-skipped whitespace. -/
theorem parseMembers_skipWs (f : Nat) (cs : List Char) (acc : List (String × Json)) :
    parseMembers f (skipWs cs) acc = parseMembers f cs acc := by
  cases f with
  | zero => rfl
  | succ f1 =>
    simp only [parseMembers]
    rw [skipWs_idem]

/-- The member parser ignores leading whitespace. -/
theorem parseMembers_ws (f : Nat) (ws cs : List Char) (acc : List (String × Json))
    (hws : ∀ c ∈ ws, isJsonWs c = true) :
    parseMembers f (ws ++ cs) acc = parseMembers f cs acc := by
  cases f with
  | zero => rfl
  | succ f1 =>
    simp only [parseMembers]
    rw [skipWs_ws_append ws cs hws]

/-- A printed field run is its indentation followed by an opening quote. -/
theorem printFields_head (ind : Nat) (k : String) (v : Json) (jf : JFields) :
    ∃ t, printFields ind k v jf = nSpaces ind ++ '"' :: t := by
  cases jf with
  | fnil =>
    exact ⟨escChars k.data ++ ['"'] ++ ':' :: ' ' :: printJson ind v, by
      simp [printFields, quoteChars, List.append_assoc]⟩
  | fcons k2 v2 rest =>
    exact ⟨escChars k.data ++ ['"'] ++ ':' :: ' ' ::
        (printJson ind v ++ ',' :: '\n' :: printFields ind k2 v2 rest), by
      simp [printFields, quoteChars, List.append_assoc]⟩

/-- The field list of a run rebuilds the run. -/
theorem fieldsList_fcons : ∀ (k : String) (v : Json) (jf : JFields),
    jfOfList (fieldsList k v jf) = JFields.fcons k v jf
  | _, _, JFields.fnil => rfl
  | k, v, JFields.fcons k2 v2 rest => by
    simp only [fieldsList, jfOfList]
    rw [fieldsList_fcons k2 v2 rest]

/-- Core round trip, by induction on fuel: a printed good value followed by a
numerically safe remainder parses back exactly (first conjunct), and a printed
nonempty field run with its terminator parses back to the object collecting
the accumulator and the run (second conjunct). -/
theorem parse_print_aux : ∀ f : Nat,
    (∀ (j : Json) (ind : Nat) (rest : List Char),
      goodJ j = true → numSafe rest = true →
      (printJson ind j).length + rest.length < f →
      parseValue f (printJson ind j ++ rest) = some (j, rest)) ∧
    (∀ (ind : Nat) (k : String) (v : Json) (jf : JFields) (pad rest : List Char)
      (acc : List (String × Json)),
      goodJ v = true → goodF jf = true →
      (∀ c ∈ pad, isJsonWs c = true) →
      (printFields ind k v jf ++ '\n' :: (pad ++ '}' :: rest)).length ≤ f →
      parseMembers f (printFields ind k v jf ++ '\n' :: (pad ++ '}' :: rest)) acc
        = some (Json.jobj (jfOfList (acc ++ fieldsList k v jf)), rest)) := by
  intro f
  induction f with
  | zero =>
    constructor
    · intro j ind rest _ _ hlen
      exact absurd hlen (Nat.not_lt_zero _)
    · intro ind k v jf pad rest acc _ _ _ hlen
      exfalso
      simp only [List.length_append, List.length_cons] at hlen
      omega
  | succ f ih =>
    obtain ⟨ih1, ih2⟩ := ih
    constructor
    · intro j ind rest hg hsafe hlen
      cases j with
      | jstr s =>
        have h1 : printJson ind (Json.jstr s) ++ rest
            = '"' :: (escChars s.data ++ '"' :: rest) := by
          simp [printJson, quoteChars, List.append_assoc]
        rw [h1]
        simp only [parseValue]
        rw [skipWs_cons_not '"' _ (by decide)]
        simp +decide [parseStrBody_escape, mk_data]
      | jnum s =>
        have hg2 : goodNumB s.data = true := by simpa [goodJ] using hg
        obtain ⟨c, cs1, hdata, hc⟩ := goodNum_head s.data hg2
        have hnum : parseNumTok (c :: (cs1 ++ rest)) = some (s.data, rest) := by
          have h2 := parseNumTok_append s.data rest hg2 hsafe
          rw [show s.data ++ rest = c :: (cs1 ++ rest) from by rw [hdata]; rfl] at h2
          exact h2
        have hwsF : isJsonWs c = false := by
          rcases hc with rfl | hd
          · decide
          · exact isDigit_not_jsonWs c hd
        have hq : ¬ c = '"' := by
          rcases hc with rfl | hd
          · decide
          · exact (isDigit_not_delim c hd).1
        have hb : ¬ c = '{' := by
          rcases hc with rfl | hd
          · decide
          · exact (isDigit_not_delim c hd).2.1
        have hk : ¬ c = '[' := by
          rcases hc with rfl | hd
          · decide
          · exact (isDigit_not_delim c hd).2.2
        have h1 : printJson ind (Json.jnum s) ++ rest = c :: (cs1 ++ rest) := by
          simp [printJson, hdata]
        rw [h1]
        simp only [parseValue]
        rw [skipWs_cons_not c _ hwsF]
        simp +decide [hq, hb, hk, hnum, mk_data]
      | jobj jf =>
        cases jf with
        | fnil =>
          have h1 : printJson ind (Json.jobj JFields.fnil) ++ rest
              = '{' :: '}' :: rest := by simp [printJson]
          rw [h1]
          simp only [parseValue]
          rw [skipWs_cons_not '{' _ (by decide)]
          simp +decide [skipWs_cons_not, isJsonWs]
        | fcons k v jf2 =>
          obtain ⟨t, ht⟩ := printFields_head (ind + 2) k v jf2
          have hgvf : goodJ v = true ∧ goodF jf2 = true := by
            simpa [goodJ, goodF] using hg
          have h1 : printJson ind (Json.jobj (JFields.fcons k v jf2)) ++ rest
              = '{' :: ('\n' :: (printFields (ind + 2) k v jf2 ++
                  '\n' :: (nSpaces ind ++ '}' :: rest))) := by
            simp [printJson, List.append_assoc]
          have hskip : skipWs ('\n' :: (printFields (ind + 2) k v jf2 ++
                  '\n' :: (nSpaces ind ++ '}' :: rest)))
              = '"' :: (t ++ '\n' :: (nSpaces ind ++ '}' :: rest)) := by
            rw [ht]
            have h2 : ('\n' :: ((nSpaces (ind + 2) ++ '"' :: t) ++
                    '\n' :: (nSpaces ind ++ '}' :: rest)))
                = ('\n' :: nSpaces (ind + 2)) ++
                    ('"' :: (t ++ '\n' :: (nSpaces ind ++ '}' :: rest))) := by
              simp [List.append_assoc]
            rw [h2, skipWs_ws_append _ _ (by
              intro c hcm
              rcases List.mem_cons.mp hcm with rfl | hcm2
              · decide
              · exact nSpaces_ws _ c hcm2), skipWs_cons_not '"' _ (by decide)]
          have hbound : (printFields (ind + 2) k v jf2 ++
                  '\n' :: (nSpaces ind ++ '}' :: rest)).length ≤ f := by
            simp only [printJson] at hlen
            simp only [List.length_append, List.length_cons, nSpaces,
              List.length_replicate] at hlen ⊢
            omega
          rw [h1]
          simp only [parseValue]
          rw [skipWs_cons_not '{' _ (by decide)]
          simp +decide [hskip]
          rw [← hskip, parseMembers_skipWs]
          rw [show ('\n' :: (printFields (ind + 2) k v jf2 ++
                  '\n' :: (nSpaces ind ++ '}' :: rest)))
              = ['\n'] ++ (printFields (ind + 2) k v jf2 ++
                  '\n' :: (nSpaces ind ++ '}' :: rest)) from rfl]
          rw [parseMembers_ws f ['\n'] _ [] (by
            intro c hcm
            rcases List.mem_cons.mp hcm with rfl | hcm2
            · decide
            · cases hcm2)]
          rw [ih2 (ind + 2) k v jf2 (nSpaces ind) rest [] hgvf.1 hgvf.2
            (nSpaces_ws ind) hbound]
          simp [fieldsList_fcons]
      | jarr es => simp [goodJ] at hg
    · intro ind k v jf pad rest acc hv hf hpad hlen
      cases jf with
      | fnil =>
        have h1 : printFields ind k v JFields.fnil ++ '\n' :: (pad ++ '}' :: rest)
            = nSpaces ind ++ ('"' :: (escChars k.data ++ '"' :: ':' :: ' ' ::
                (printJson ind v ++ '\n' :: (pad ++ '}' :: rest)))) := by
          simp [printFields, quoteChars, List.append_assoc]
        have hskip : skipWs (printFields ind k v JFields.fnil ++
                '\n' :: (pad ++ '}' :: rest))
            = '"' :: (escChars k.data ++ '"' :: ':' :: ' ' ::
                (printJson ind v ++ '\n' :: (pad ++ '}' :: rest))) := by
          rw [h1, skipWs_ws_append _ _ (nSpaces_ws ind),
            skipWs_cons_not '"' _ (by decide)]
        have hbound2 : (printJson ind v).length +
            ('\n' :: (pad ++ '}' :: rest)).length < f := by
          simp only [printFields, quoteChars] at hlen
          simp only [List.length_append, List.length_cons, nSpaces,
            List.length_replicate] at hlen ⊢
          omega
        have hval : parseValue f (' ' :: (printJson ind v ++
                '\n' :: (pad ++ '}' :: rest)))
            = some (v, '\n' :: (pad ++ '}' :: rest)) := by
          rw [show (' ' :: (printJson ind v ++ '\n' :: (pad ++ '}' :: rest)))
              = [' '] ++ (printJson ind v ++ '\n' :: (pad ++ '}' :: rest)) from rfl]
          rw [parseValue_ws f [' '] _ (by
            intro c hcm
            rcases List.mem_cons.mp hcm with rfl | hcm2
            · decide
            · cases hcm2)]
          exact ih1 v ind _ hv rfl hbound2
        have hskip2 : skipWs ('\n' :: (pad ++ '}' :: rest)) = '}' :: rest := by
          rw [show ('\n' :: (pad ++ '}' :: rest))
              = ('\n' :: pad) ++ ('}' :: rest) from rfl]
          rw [skipWs_ws_append _ _ (by
            intro c hcm
            rcases List.mem_cons.mp hcm with rfl | hcm2
            · decide
            · exact hpad c hcm2), skipWs_cons_not '}' _ (by decide)]
        simp only [parseMembers]
        rw [hskip]
        simp +decide [parseStrBody_escape, skipWs_cons_not, isJsonWs, hval,
          hskip2, mk_data, fieldsList]
      | fcons k2 v2 jf2 =>
        have hf2 : goodJ v2 = true ∧ goodF jf2 = true := by
          simpa [goodF] using hf
        have h1 : printFields ind k v (JFields.fcons k2 v2 jf2) ++
                '\n' :: (pad ++ '}' :: rest)
            = nSpaces ind ++ ('"' :: (escChars k.data ++ '"' :: ':' :: ' ' ::
                (printJson ind v ++ ',' :: '\n' ::
                  (printFields ind k2 v2 jf2 ++ '\n' :: (pad ++ '}' :: rest))))) := by
          simp [printFields, quoteChars, List.append_assoc]
        have hskip : skipWs (printFields ind k v (JFields.fcons k2 v2 jf2) ++
                '\n' :: (pad ++ '}' :: rest))
            = '"' :: (escChars k.data ++ '"' :: ':' :: ' ' ::
                (printJson ind v ++ ',' :: '\n' ::
                  (printFields ind k2 v2 jf2 ++ '\n' :: (pad ++ '}' :: rest)))) := by
          rw [h1, skipWs_ws_append _ _ (nSpaces_ws ind),
            skipWs_cons_not '"' _ (by decide)]
        have hbound2 : (printJson ind v).length +
            (',' :: '\n' :: (printFields ind k2 v2 jf2 ++
              '\n' :: (pad ++ '}' :: rest))).length < f := by
          simp only [printFields, quoteChars] at hlen
          simp only [List.length_append, List.length_cons, nSpaces,
            List.length_replicate] at hlen ⊢
          omega
        have hbound3 : (printFields ind k2 v2 jf2 ++
            '\n' :: (pad ++ '}' :: rest)).length ≤ f := by
          simp only [printFields, quoteChars] at hlen
          simp only [List.length_append, List.length_cons, nSpaces,
            List.length_replicate] at hlen ⊢
          omega
        have hval : parseValue f (' ' :: (printJson ind v ++ ',' :: '\n' ::
                (printFields ind k2 v2 jf2 ++ '\n' :: (pad ++ '}' :: rest))))
            = some (v, ',' :: '\n' :: (printFields ind k2 v2 jf2 ++
                '\n' :: (pad ++ '}' :: rest))) := by
          rw [show (' ' :: (printJson ind v ++ ',' :: '\n' ::
                  (printFields ind k2 v2 jf2 ++ '\n' :: (pad ++ '}' :: rest))))
              = [' '] ++ (printJson ind v ++ ',' :: '\n' ::
                  (printFields ind k2 v2 jf2 ++ '\n' :: (pad ++ '}' :: rest)))
              from rfl]
          rw [parseValue_ws f [' '] _ (by
            intro c hcm
            rcases List.mem_cons.mp hcm with rfl | hcm2
            · decide
            · cases hcm2)]
          exact ih1 v ind _ hv rfl hbound2
        have hrec : parseMembers f ('\n' :: (printFields ind k2 v2 jf2 ++
                '\n' :: (pad ++ '}' :: rest))) (acc ++ [(k, v)])
            = some (Json.jobj (jfOfList ((acc ++ [(k, v)]) ++
                fieldsList k2 v2 jf2)), rest) := by
          rw [show ('\n' :: (printFields ind k2 v2 jf2 ++
                  '\n' :: (pad ++ '}' :: rest)))
              = ['\n'] ++ (printFields ind k2 v2 jf2 ++
                  '\n' :: (pad ++ '}' :: rest)) from rfl]
          rw [parseMembers_ws f ['\n'] _ _ (by
            intro c hcm
            rcases List.mem_cons.mp hcm with rfl | hcm2
            · decide
            · cases hcm2)]
          exact ih2 ind k2 v2 jf2 pad rest (acc ++ [(k, v)]) hf2.1 hf2.2 hpad
            hbound3
        simp only [parseMembers]
        rw [hskip]
        simp +decide [parseStrBody_escape, skipWs_cons_not, isJsonWs, hval,
          hrec, mk_data, fieldsList, List.append_assoc]

/-- Parsing a printed good value recovers it exactly. -/
theorem parse_print (j : Json) (hg : goodJ j = true) :
    jsonParse (String.mk (printJson 0 j)) = some j := by
  unfold jsonParse
  rw [show (String.mk (printJson 0 j)).data = printJson 0 j from rfl]
  have hP := (parse_print_aux ((printJson 0 j).length + 1)).1 j 0 [] hg rfl
    (by simp)
  rw [List.append_nil] at hP
  rw [hP]
  simp [skipWs]

/-- Typography conversion only touches the family block: weights stay at the
baseline. -/
theorem convertTypography_weights (l : List TypographyInfo) :
    (convertTypographyToTokens l).weights = generateDefaultTypographyTokens.weights := by
  rcases hH : List.find? (fun t => t.category == some TypoCategory.heading) l with _ | fH <;>
  rcases hB : List.find? (fun t => t.category == some TypoCategory.body) l with _ | fB <;>
  rcases hA : List.find? (fun t => t.category == some TypoCategory.accent) l with _ | fA <;>
  simp [convertTypographyToTokens, hH, hB, hA]

/-- Typography conversion only touches the family block: line heights stay at
the baseline. -/
theorem convertTypography_lineHeights (l : List TypographyInfo) :
    (convertTypographyToTokens l).lineHeights
      = generateDefaultTypographyTokens.lineHeights := by
  rcases hH : List.find? (fun t => t.category == some TypoCategory.heading) l with _ | fH <;>
  rcases hB : List.find? (fun t => t.category == some TypoCategory.body) l with _ | fB <;>
  rcases hA : List.find? (fun t => t.category == some TypoCategory.accent) l with _ | fA <;>
  simp [convertTypographyToTokens, hH, hB, hA]

/-- A record serialized with quoted values is good regardless of its
contents. -/
theorem goodJ_jsonOfPairs (m : List (String × String)) :
    goodJ (jsonOfPairs m) = true := by
  induction m with
  | nil => rfl
  | cons kv rest ih =>
    simp [jsonOfPairs, jfOfList, goodJ, goodF] at ih ⊢
    exact ih

/-- The colour block serializes to a good value for any colour tokens. -/
theorem goodJ_colors (c : ColorTokens) : goodJ (jsonOfColors c) = true := by
  have h1 := goodJ_jsonOfPairs c.primary
  have h2 := goodJ_jsonOfPairs c.secondary
  have h3 := goodJ_jsonOfPairs c.accent
  have h4 := goodJ_jsonOfPairs c.neutral
  have h5 := goodJ_jsonOfPairs (feedbackEntries c.feedback)
  simp [jsonOfColors, jfOfList, goodJ, goodF] at h1 h2 h3 h4 h5 ⊢
  exact ⟨h1, h2, h3, h4, h5⟩

/-- The typography block produced by conversion serializes to a good value:
its only number leaves are the baseline weights and line heights. -/
theorem goodJ_typography (l : List TypographyInfo) :
    goodJ (jsonOfTypography (convertTypographyToTokens l)) = true := by
  have hW := convertTypography_weights l
  have hL := convertTypography_lineHeights l
  have hS := goodJ_jsonOfPairs (sizeEntries (convertTypographyToTokens l).sizes)
  rcases hAcc : (convertTypographyToTokens l).families.accent with _ | a <;>
    simp [jsonOfTypography, jfOfList, goodJ, goodF, hAcc, hW, hL, hS,
      jsonOfNumPairs, weightEntries, lineHeightEntries,
      generateDefaultTypographyTokens] <;>
    exact ⟨by decide, by simpa [jsonOfPairs, goodJ] using hS, by decide,
      by decide, by decide⟩

/-- Every token set produced by synthesis serializes to a good value. -/
theorem goodJ_tokens (p : BrandingData) (now : String) :
    goodJ (jsonOfTokens (generateDesignTokens p now)) = true := by
  have hC := goodJ_colors (convertColorsToTokens p.colors)
  have hT := goodJ_typography p.typography
  have hSp := goodJ_jsonOfPairs (spacingEntries generateDefaultSpacingTokens)
  simp [jsonOfTokens, generateDesignTokens, jfOfList, goodJ, goodF] at hC hT hSp ⊢
  exact ⟨hC, hT, hSp⟩

/-- C7.  Round-trip of the structured format: for every token set produced by
synthesis, parsing the text returned by the JSON rendering yields exactly the
serialized structure — the parse tree is deep-equal to the token set's JSON
view. -/
theorem c7_structured_roundtrip (p : BrandingData) (now : String) :
    jsonParse (convertTokensToFormat (generateDesignTokens p now) "json")
      = some (jsonOfTokens (generateDesignTokens p now)) := by
  rw [show convertTokensToFormat (generateDesignTokens p now) "json"
      = String.mk (printJson 0 (jsonOfTokens (generateDesignTokens p now))) from by
    simp [convertTokensToFormat]]
  exact parse_print _ (goodJ_tokens p now)

end BrandTheme
